import Mathlib

/-
Verification of the flocking simulation core in src/pw2/animals/MyShoal.js.

The simulation state is embedded shallowly: THREE.Vector3 values become a
record of three real numbers, the per-fish parallel arrays become parallel
lists, and the random draws consumed by the code (Math.random) are passed
in explicitly as parameters.  Every definition below translates the
corresponding JavaScript function body; the guard `length v = 0` mirrors
the `length || 1` idiom of THREE.Vector3.divideScalar users.
-/

noncomputable section

namespace MyShoal

/-- Shallow embedding of a THREE.Vector3 value. -/
structure Vec3 where
  x : ℝ
  y : ℝ
  z : ℝ

namespace Vec3

instance : Zero Vec3 := ⟨⟨0, 0, 0⟩⟩

instance : Add Vec3 := ⟨fun a b => ⟨a.x + b.x, a.y + b.y, a.z + b.z⟩⟩

instance : Sub Vec3 := ⟨fun a b => ⟨a.x - b.x, a.y - b.y, a.z - b.z⟩⟩

instance : SMul ℝ Vec3 := ⟨fun c v => ⟨c * v.x, c * v.y, c * v.z⟩⟩

/-- THREE.Vector3.lengthSq. -/
def lengthSq (v : Vec3) : ℝ := v.x ^ 2 + v.y ^ 2 + v.z ^ 2

/-- THREE.Vector3.length. -/
def length (v : Vec3) : ℝ := Real.sqrt (lengthSq v)

/-- THREE.Vector3.divideScalar: multiplies by the reciprocal of the scalar. -/
def divScalar (v : Vec3) (s : ℝ) : Vec3 := (1 / s) • v

/-- THREE.Vector3.normalize: divides by the length, with the
`length || 1` guard for the zero vector. -/
def normalize (v : Vec3) : Vec3 := divScalar v (if length v = 0 then 1 else length v)

/-- THREE.Vector3.setLength: normalize then scale. -/
def setLength (v : Vec3) (l : ℝ) : Vec3 := l • normalize v

/-- THREE.Vector3.clampLength: divide by `length || 1`, then scale by the
length clamped into the interval. -/
def clampLength (v : Vec3) (lo hi : ℝ) : Vec3 :=
  max lo (min hi (length v)) • divScalar v (if length v = 0 then 1 else length v)

/-- THREE.Vector3.distanceTo. -/
def dist (a b : Vec3) : ℝ := length (a - b)

end Vec3

/-- Math.sign. -/
def sgn (x : ℝ) : ℝ := if 0 < x then 1 else if x < 0 then -1 else 0

/-- Shallow embedding of a THREE.Box3 (the cached, margin-expanded temple
bounding box). -/
structure Box3 where
  lo : Vec3
  hi : Vec3

namespace Box3

/-- THREE.Box3.clampPoint. -/
def clampPoint (b : Box3) (p : Vec3) : Vec3 :=
  ⟨max b.lo.x (min b.hi.x p.x), max b.lo.y (min b.hi.y p.y), max b.lo.z (min b.hi.z p.z)⟩

/-- THREE.Box3.distanceToPoint. -/
def distanceToPoint (b : Box3) (p : Vec3) : ℝ := Vec3.dist (b.clampPoint p) p

/-- THREE.Box3.containsPoint. -/
def containsPoint (b : Box3) (p : Vec3) : Prop :=
  b.lo.x ≤ p.x ∧ p.x ≤ b.hi.x ∧ b.lo.y ≤ p.y ∧ p.y ≤ b.hi.y ∧ b.lo.z ≤ p.z ∧ p.z ≤ b.hi.z

instance (b : Box3) (p : Vec3) : Decidable (containsPoint b p) := by
  unfold containsPoint; infer_instance

/-- THREE.Box3.getCenter. -/
def getCenter (b : Box3) : Vec3 := (1 / 2 : ℝ) • (b.lo + b.hi)

/-- THREE.Box3.getSize. -/
def getSize (b : Box3) : Vec3 := b.hi - b.lo

end Box3

/-- The numeric fields of `_initializeOptions` that the simulation core
reads (visual-only fields are omitted). -/
structure ShoalOptions where
  separationDistance : ℝ
  alignmentDistance : ℝ
  cohesionDistance : ℝ
  separationWeight : ℝ
  alignmentWeight : ℝ
  cohesionWeight : ℝ
  maxSpeed : ℝ
  maxForce : ℝ
  wanderStrength : ℝ
  dangerDetectionDistance : ℝ
  dangerEvasionDistance : ℝ
  dangerEvasionWeight : ℝ
  panicSpeedMultiplier : ℝ
  panicDuration : ℤ
  boundsWeight : ℝ
  boundsMargin : ℝ
  areaSize : ℝ
  height : ℝ
  terrainMargin : ℝ
  bvhUpdateFrequency : ℕ

/-- The default values of `_initializeOptions`. -/
def defaultOptions : ShoalOptions where
  separationDistance := 15
  alignmentDistance := 40
  cohesionDistance := 50
  separationWeight := 3
  alignmentWeight := 1
  cohesionWeight := 3
  maxSpeed := 80
  maxForce := 5
  wanderStrength := 1 / 10
  dangerDetectionDistance := 30
  dangerEvasionDistance := 25
  dangerEvasionWeight := 15
  panicSpeedMultiplier := 5
  panicDuration := 120
  boundsWeight := 5
  boundsMargin := 50
  areaSize := 200
  height := 100
  terrainMargin := 3
  bvhUpdateFrequency := 10

/-- The environment a shoal reads but does not own: its own group
transform (translation plus uniform scale, used by getWorldPosition), the
terrain height sampler, the cached temple box, and the registered
dangerous entities (visibility flag and world position). -/
structure ShoalEnv where
  opts : ShoalOptions
  shoalPos : Vec3
  shoalScale : ℝ
  terrain : Option (ℝ → ℝ → ℝ)
  templeBox : Option Box3
  dangers : List (Bool × Vec3)

/-- The per-fish behavioral state stored in the parallel arrays. -/
structure AgentState where
  pos : Vec3
  vel : Vec3
  acc : Vec3
  wanderAngle : ℝ
  panicMode : Bool
  panicTimer : ℤ

/-- The five force contributions computed in step 3 of `update`. -/
structure ForceSet where
  flockF : Vec3
  wanderF : Vec3
  terrainF : Vec3
  templeF : Vec3
  dangerF : Vec3

/-- The shoal state: the six parallel per-fish arrays plus the BVH
bookkeeping fields. -/
structure ShoalState where
  fishPos : List Vec3
  velocities : List Vec3
  accelerations : List Vec3
  wanderAngles : List ℝ
  panicMode : List Bool
  panicTimer : List ℤ
  bvhEnabled : Bool
  bvhFrameCount : ℕ

/-- getWorldPosition of a fish: the shoal group applies a translation and
a uniform scale. -/
def worldPosOf (env : ShoalEnv) (localPos : Vec3) : Vec3 :=
  env.shoalPos + env.shoalScale • localPos

/-- The neighbor accumulators of `flock`. -/
structure FlockAcc where
  alignment : Vec3
  cohesion : Vec3
  separation : Vec3
  total : ℕ

/-- `flock(fishIndex)`: separation / alignment / cohesion over a single
awareness-radius scan of all fish, plus the boundary avoidance force. -/
def flock (opts : ShoalOptions) (positions velocities : List Vec3) (i : ℕ) : Vec3 :=
  let position := positions.getD i 0
  let velocity := velocities.getD i 0
  let awareness := max opts.separationDistance (max opts.alignmentDistance opts.cohesionDistance)
  let acc := (List.range positions.length).foldl (fun (a : FlockAcc) j =>
    if j = i then a else
    let d := Vec3.dist position (positions.getD j 0)
    if 0 < d ∧ d < awareness then
      { alignment := a.alignment + velocities.getD j 0,
        cohesion := a.cohesion + positions.getD j 0,
        separation := a.separation + Vec3.divScalar (Vec3.normalize (position - positions.getD j 0)) d,
        total := a.total + 1 }
    else a) ⟨0, 0, 0, 0⟩
  let steerForces :=
    if 0 < acc.total then
      let t : ℝ := acc.total
      let alignSteer := Vec3.clampLength
        (opts.maxSpeed • Vec3.normalize (Vec3.divScalar acc.alignment t) - velocity)
        0 opts.alignmentWeight
      let cohSteer := Vec3.clampLength
        (opts.maxSpeed • Vec3.normalize (Vec3.divScalar acc.cohesion t - position) - velocity)
        0 opts.cohesionWeight
      let sepSteer := Vec3.clampLength
        (opts.maxSpeed • Vec3.normalize (Vec3.divScalar acc.separation t) - velocity)
        0 opts.separationWeight
      alignSteer + cohSteer + sepSteer
    else (0 : Vec3)
  let halfArea := opts.areaSize * (1 / 2)
  let halfHeight := opts.height * (1 / 2)
  let margin := opts.boundsMargin
  let distToLeft := position.x + halfArea
  let distToRight := halfArea - position.x
  let distToBottom := position.y + halfHeight
  let distToTop := halfHeight - position.y
  let distToFront := position.z + halfArea
  let distToBack := halfArea - position.z
  let bx := if distToLeft < margin then (margin - distToLeft) / margin
    else if distToRight < margin then -((margin - distToRight) / margin) else 0
  let bvy := if distToBottom < margin then (margin - distToBottom) / margin
    else if distToTop < margin then -((margin - distToTop) / margin) else 0
  let bz := if distToFront < margin then (margin - distToFront) / margin
    else if distToBack < margin then -((margin - distToBack) / margin) else 0
  let boundAvoid : Vec3 := ⟨bx, bvy, bz⟩
  let boundForce :=
    if 0 < Vec3.lengthSq boundAvoid then
      let closestDistance := min (min distToLeft distToRight)
        (min (min distToBottom distToTop) (min distToFront distToBack))
      let urgency := 1 - closestDistance / margin
      Vec3.clampLength
        ((opts.maxSpeed * (1 + urgency * 2)) • Vec3.normalize boundAvoid - velocity)
        0 (opts.boundsWeight * (1 + urgency))
    else (0 : Vec3)
  steerForces + boundForce

/-- `wander(fishIndex)`: advances the stored wander angle by the random
draw, then steers toward a point on the wander circle.  Returns the force
and the new wander angle (the JavaScript writes the angle back into
`this.wanderAngles`). -/
def wander (opts : ShoalOptions) (vel : Vec3) (angle : ℝ) (r : ℝ) : Vec3 × ℝ :=
  let angle2 := angle + (r - 1 / 2) * (3 / 10)
  let circleCenter := (2 : ℝ) • Vec3.normalize vel
  let circleOffset : Vec3 :=
    ⟨Real.cos angle2 * (8 / 10), Real.sin angle2 * (3 / 10), Real.sin (angle2 * (8 / 10)) * (8 / 10)⟩
  let desired := (opts.maxSpeed * (3 / 10)) • Vec3.normalize (circleCenter + circleOffset)
  (desired - vel, angle2)

/-- `avoidTerrain(fishIndex)`: if the fish is below the terrain height
plus the margin, build an upward steer with the quadratic magnitude, then
rescale any nonzero steer to `min(maxSpeed*2, 5.0)` via setLength. -/
def avoidTerrain (opts : ShoalOptions) (terrain : Option (ℝ → ℝ → ℝ)) (worldPos : Vec3) : Vec3 :=
  match terrain with
  | none => 0
  | some heightAt =>
    let safeHeight := heightAt worldPos.x worldPos.z + opts.terrainMargin
    let steer : Vec3 :=
      if worldPos.y < safeHeight then
        ⟨0, ((safeHeight - worldPos.y) / opts.terrainMargin) ^ 2 * 5, 0⟩
      else 0
    if 0 < Vec3.length steer then Vec3.setLength steer (min (opts.maxSpeed * 2) 5) else steer

/-- `avoidTemple(fishIndex)`: pushes a fish out of (or away from) the
cached, margin-expanded temple bounding box. -/
def avoidTemple (opts : ShoalOptions) (templeBox : Option Box3) (worldPos : Vec3) : Vec3 :=
  match templeBox with
  | none => 0
  | some box =>
    let d := box.distanceToPoint worldPos
    if d = 0 ∨ d < 10 then
      if box.containsPoint worldPos then
        let center := box.getCenter
        let size := box.getSize
        let l := worldPos - center
        let faceX : ℝ × ℝ × Vec3 := (size.x * (1 / 2) - |l.x|, size.x * (1 / 2), ⟨sgn l.x, 0, 0⟩)
        let faceY : ℝ × ℝ × Vec3 := (size.y * (1 / 2) - |l.y|, size.y * (1 / 2), ⟨0, sgn l.y, 0⟩)
        let faceZ : ℝ × ℝ × Vec3 := (size.z * (1 / 2) - |l.z|, size.z * (1 / 2), ⟨0, 0, sgn l.z⟩)
        let best1 := if faceY.1 < faceX.1 then faceY else faceX
        let best2 := if faceZ.1 < best1.1 then faceZ else best1
        let urgency := (best2.1 / best2.2.1) ^ 2
        (opts.maxSpeed * (1 + urgency * 3)) • Vec3.normalize best2.2.2
      else if d < 1 then
        let center := box.getCenter
        (opts.maxSpeed * (1 - d / 1) * 2) • Vec3.normalize (worldPos - center)
      else 0
    else 0

/-- The loop body of `dangerEvasion`: the accumulators for one pass over
`this.dangerousEntities`. -/
structure DangerAcc where
  steer : Vec3
  closest : Option (ℝ × Vec3)
  detected : Bool
  panic : Bool
  timer : ℤ

/-- One iteration of the `dangerEvasion` entity loop.  `closest = none`
models the initial `closestDangerDistance = Infinity`. -/
def dangerStep (opts : ShoalOptions) (fishW : Vec3) (acc : DangerAcc) (ent : Bool × Vec3) :
    DangerAcc :=
  if ent.1 then
    let d := Vec3.dist fishW ent.2
    if d < opts.dangerDetectionDistance then
      let closest1 := match acc.closest with
        | none => some (d, Vec3.normalize (fishW - ent.2))
        | some c => if d < c.1 then some (d, Vec3.normalize (fishW - ent.2)) else acc.closest
      let acc1 : DangerAcc := { acc with detected := true, closest := closest1 }
      if d < opts.dangerEvasionDistance then
        let escapeDir := Vec3.normalize (fishW - ent.2)
        let urgency := 1 - d / opts.dangerEvasionDistance
        let acc2 : DangerAcc := { acc1 with steer := acc1.steer + (urgency ^ 2 * 5) • escapeDir }
        if d < opts.dangerEvasionDistance * (1 / 2) then
          { acc2 with panic := true, timer := opts.panicDuration }
        else acc2
      else acc1
    else acc
  else acc

/-- `dangerEvasion(fishIndex)`: scans the dangerous entities, applies the
preemptive steer and the final clamp, and returns the force together with
the (possibly re-triggered) panic flag and timer that the JavaScript
writes back into `this.panicMode` / `this.panicTimer`. -/
def dangerEvasion (opts : ShoalOptions) (dangers : List (Bool × Vec3)) (fishW : Vec3)
    (panic0 : Bool) (timer0 : ℤ) : Vec3 × Bool × ℤ :=
  let a := dangers.foldl (dangerStep opts fishW) ⟨0, none, false, panic0, timer0⟩
  if a.detected then
    let steer1 := match a.closest with
      | none => a.steer
      | some c =>
        if Vec3.length a.steer = 0 ∧ c.1 < opts.dangerDetectionDistance then
          ((1 - c.1 / opts.dangerDetectionDistance) * 2) • c.2
        else a.steer
    let steer2 :=
      if 0 < Vec3.length steer1 then
        let speedMultiplier : ℝ := if a.panic then opts.panicSpeedMultiplier else 3 / 2
        Vec3.clampLength steer1 0 (opts.maxForce * opts.dangerEvasionWeight * speedMultiplier)
      else steer1
    (steer2, a.panic, a.timer)
  else (a.steer, a.panic, a.timer)

/-- Step 2 of `update`: decrement the panic timer of a panicking fish and
clear the flag when the timer reaches zero. -/
def panicDecayStep : Bool × ℤ → Bool × ℤ
  | (true, t) =>
    let t1 := t - 1
    if t1 ≤ 0 then (false, t1) else (true, t1)
  | (false, t) => (false, t)

/-- Step 3 of `update`: compute the five behavioral forces.  `wander`
also advances the wander angle and `dangerEvasion` may set the panic
flag and timer, so the updated agent state is returned alongside the
forces; position, velocity and acceleration are passed through. -/
def forcePhase (env : ShoalEnv) (positions velocities : List Vec3) (i : ℕ) (r : ℝ)
    (a : AgentState) : ForceSet × AgentState :=
  let flockForce := flock env.opts positions velocities i
  let w := wander env.opts a.vel a.wanderAngle r
  let worldPos := worldPosOf env a.pos
  let terrainForce := avoidTerrain env.opts env.terrain worldPos
  let templeForce := avoidTemple env.opts env.templeBox worldPos
  let de := dangerEvasion env.opts env.dangers worldPos a.panicMode a.panicTimer
  (⟨flockForce, w.1, terrainForce, templeForce, de.1⟩,
   { a with wanderAngle := w.2, panicMode := de.2.1, panicTimer := de.2.2 })

/-- Step 8 of `update`: scale the velocity down when its length exceeds
the (panic-boosted) speed limit. -/
def clampSpeed (maxSp : ℝ) (v : Vec3) : Vec3 :=
  if maxSp < Vec3.length v then (maxSp / Vec3.length v) • v else v

/-- Step 10 of `update` on one axis: the gentle turn away from a
boundary, with boundaryMargin 20 and turnStrength 0.5. -/
def softTurnAxis (half coord v : ℝ) : ℝ :=
  if coord < -half + 20 then v + (1 / 2) * (1 - (coord + half) / 20)
  else if half - 20 < coord then v - (1 / 2) * (1 - (half - coord) / 20)
  else v

/-- Step 11 of `update` on one axis: the hard position clamp that moves
an escaped fish back just inside the box and forces the velocity
component inward. -/
def hardClampAxis (half coord v : ℝ) : ℝ × ℝ :=
  if coord < -half then (-half + 1 / 10, max (1 / 10) v)
  else if half < coord then (half - 1 / 10, min (-(1 / 10)) v)
  else (coord, v)

/-- Steps 10 and 11 of `update`: the soft boundary turn followed by the
hard boundary clamp, returning (position, velocity). -/
def boundaryPhase (halfArea halfHeight : ℝ) (pos vel : Vec3) : Vec3 × Vec3 :=
  let v1 : Vec3 := ⟨softTurnAxis halfArea pos.x vel.x, softTurnAxis halfHeight pos.y vel.y,
    softTurnAxis halfArea pos.z vel.z⟩
  let hx := hardClampAxis halfArea pos.x v1.x
  let hy := hardClampAxis halfHeight pos.y v1.y
  let hz := hardClampAxis halfArea pos.z v1.z
  (⟨hx.1, hy.1, hz.1⟩, ⟨hx.2, hy.2, hz.2⟩)

/-- The body of the per-fish loop of `update`: steps 1 to 11 for fish
`i`, reading the current (partially updated) arrays and writing back only
the entries at index `i`.  `r` is the Math.random draw consumed by
`wander`.  (Steps 12 and 13, fish animation and rotation smoothing, only
touch the visual transform.) -/
def stepAgent (env : ShoalEnv) (dt : ℝ) (r : ℝ) (s : ShoalState) (i : ℕ) : ShoalState :=
  let fixedDelta := min dt (1 / 10)
  let halfArea := env.opts.areaSize * (1 / 2)
  let halfHeight := env.opts.height * (1 / 2)
  let pd := panicDecayStep (s.panicMode.getD i false, s.panicTimer.getD i 0)
  let a0 : AgentState :=
    ⟨s.fishPos.getD i 0, s.velocities.getD i 0, 0, s.wanderAngles.getD i 0, pd.1, pd.2⟩
  let fp := forcePhase env s.fishPos s.velocities i r a0
  let acc1 := fp.1.flockF + env.opts.wanderStrength • fp.1.wanderF + fp.1.terrainF
    + fp.1.templeF + env.opts.dangerEvasionWeight • fp.1.dangerF
  let acc2 := Vec3.clampLength acc1 0 (env.opts.maxForce * 2)
  let vel1 := fp.2.vel + fixedDelta • acc2
  let maxSp := if fp.2.panicMode then env.opts.maxSpeed * env.opts.panicSpeedMultiplier
    else env.opts.maxSpeed
  let vel2 := clampSpeed maxSp vel1
  let pos1 := fp.2.pos + fixedDelta • vel2
  let bp := boundaryPhase halfArea halfHeight pos1 vel2
  { s with
    fishPos := s.fishPos.set i bp.1,
    velocities := s.velocities.set i bp.2,
    accelerations := s.accelerations.set i acc2,
    wanderAngles := s.wanderAngles.set i fp.2.wanderAngle,
    panicMode := s.panicMode.set i fp.2.panicMode,
    panicTimer := s.panicTimer.set i fp.2.panicTimer }

/-- The BVH bookkeeping at the top of `update`: the periodic geometry
rebuild driven by a frame counter.  The rebuilt structure is only read by
`getFlockingStats`, never by the force pipeline. -/
def bvhPhase (opts : ShoalOptions) (s : ShoalState) : ShoalState :=
  if s.bvhEnabled then
    if opts.bvhUpdateFrequency ≤ s.bvhFrameCount + 1 then { s with bvhFrameCount := 0 }
    else { s with bvhFrameCount := s.bvhFrameCount + 1 }
  else s

/-- The fold implementing the per-fish loop of `update` over a list of
indices. -/
def runLoop (env : ShoalEnv) (dt : ℝ) (draws : ℕ → ℝ) (l : List ℕ) (s : ShoalState) :
    ShoalState :=
  l.foldl (fun st i => stepAgent env dt (draws i) st i) s

/-- `update(delta)`: the BVH phase followed by the per-fish loop.
`draws i` is the Math.random value consumed by `wander` for fish `i`. -/
def update (env : ShoalEnv) (dt : ℝ) (draws : ℕ → ℝ) (s : ShoalState) : ShoalState :=
  let s0 := bvhPhase env.opts s
  runLoop env dt draws (List.range s0.fishPos.length) s0

/-- The brute-force fallback branch of `_getNeighbors`: scan every other
fish and keep those strictly within the radius.  (The BVH branch wraps a
shape-cast of the three-mesh-bvh library; `flock` uses neither, it scans
all fish inline.) -/
def getNeighbors (positions : List Vec3) (i : ℕ) (radius : ℝ) : List ℕ :=
  (List.range positions.length).filter
    (fun j => decide (j ≠ i) && decide (Vec3.dist (positions.getD i 0) (positions.getD j 0) < radius))

/-- One attempt triple of Math.random draws for `_generateRandomPosition`. -/
def genPosSample (areaSize height : ℝ) (samples : ℕ → ℝ × ℝ × ℝ) (k : ℕ) : Vec3 :=
  ⟨((samples k).1 - 1 / 2) * areaSize, ((samples k).2.1 - 1 / 2) * height,
    ((samples k).2.2 - 1 / 2) * areaSize⟩

/-- The rejection-sampling loop of `_generateRandomPosition`: keep the
sample when its horizontal distance from the origin exceeds the dead-zone
radius 120, or once 100 attempts have been made.  `attempts` counts
samples already taken; the fuel argument makes the recursion structural
and is always `100 - attempts`. -/
def genPosLoop (areaSize height : ℝ) (samples : ℕ → ℝ × ℝ × ℝ) : ℕ → ℕ → Vec3
  | attempts, 0 => genPosSample areaSize height samples attempts
  | attempts, fuel + 1 =>
    let p := genPosSample areaSize height samples attempts
    if 120 < Real.sqrt (p.x ^ 2 + p.z ^ 2) ∨ 100 ≤ attempts + 1 then p
    else genPosLoop areaSize height samples (attempts + 1) fuel

/-- `_generateRandomPosition()`. -/
def generateRandomPosition (opts : ShoalOptions) (samples : ℕ → ℝ × ℝ × ℝ) : Vec3 :=
  genPosLoop opts.areaSize opts.height samples 0 100

/-- `_generateInitialVelocity()`, with the two Math.random draws passed
in. -/
def generateInitialVelocity (opts : ShoalOptions) (r1 r2 : ℝ) : Vec3 :=
  let angle := r1 * Real.pi * 2
  let verticalAngle := (r2 - 1 / 2) * Real.pi * (3 / 10)
  ⟨Real.cos angle * opts.maxSpeed * (3 / 10), Real.sin verticalAngle * opts.maxSpeed * (1 / 10),
    Real.sin angle * opts.maxSpeed * (3 / 10)⟩

/-- The randomness consumed by one `createFish()` call (the size and
color draws only affect the visual instance and are omitted). -/
structure FishRandom where
  posSamples : ℕ → ℝ × ℝ × ℝ
  velAngle : ℝ
  velVert : ℝ
  wanderR : ℝ

/-- `createFish()`: push one new fish onto every parallel array. -/
def createFish (opts : ShoalOptions) (rnd : FishRandom) (s : ShoalState) : ShoalState :=
  { s with
    fishPos := s.fishPos ++ [generateRandomPosition opts rnd.posSamples],
    velocities := s.velocities ++ [generateInitialVelocity opts rnd.velAngle rnd.velVert],
    accelerations := s.accelerations ++ [0],
    wanderAngles := s.wanderAngles ++ [rnd.wanderR * Real.pi * 2],
    panicMode := s.panicMode ++ [false],
    panicTimer := s.panicTimer ++ [(0 : ℤ)] }

/-- `addFish(count)`: one `createFish` per element of the supplied
randomness list. -/
def addFish (opts : ShoalOptions) (rnds : List FishRandom) (s : ShoalState) : ShoalState :=
  rnds.foldl (fun st r => createFish opts r st) s

/-- One iteration of the `removeFish` loop: pop the tail entry of every
parallel array. -/
def popOne (s : ShoalState) : ShoalState :=
  { s with
    fishPos := s.fishPos.dropLast,
    velocities := s.velocities.dropLast,
    accelerations := s.accelerations.dropLast,
    wanderAngles := s.wanderAngles.dropLast,
    panicMode := s.panicMode.dropLast,
    panicTimer := s.panicTimer.dropLast }

/-- `removeFish`: pop `n` times. -/
def popN : ℕ → ShoalState → ShoalState
  | 0, s => s
  | k + 1, s => popN k (popOne s)

/-- `removeFish(count)`: pop `min(count, fishes.length)` fish from the
tail of every parallel array. -/
def removeFish (count : ℕ) (s : ShoalState) : ShoalState :=
  popN (min count s.fishPos.length) s

/-- The speed limit applied in step 8 of `update`: `maxSpeed`, multiplied
by `panicSpeedMultiplier` while the fish is panicking. -/
def effMaxSpeed (opts : ShoalOptions) (panic : Bool) : ℝ :=
  if panic then opts.maxSpeed * opts.panicSpeedMultiplier else opts.maxSpeed

/-- Spawn sample `k` clears the 120-unit dead zone around the origin. -/
def posQualifies (areaSize height : ℝ) (samples : ℕ → ℝ × ℝ × ℝ) (k : ℕ) : Prop :=
  120 < Real.sqrt ((genPosSample areaSize height samples k).x ^ 2
    + (genPosSample areaSize height samples k).z ^ 2)

/-- Position accessor for the parallel arrays. -/
def posAt (s : ShoalState) (i : ℕ) : Vec3 := s.fishPos.getD i 0

/-- Velocity accessor for the parallel arrays. -/
def velAt (s : ShoalState) (i : ℕ) : Vec3 := s.velocities.getD i 0

/-- Panic-flag accessor for the parallel arrays. -/
def panicAt (s : ShoalState) (i : ℕ) : Bool := s.panicMode.getD i false

/-- An environment with default options, the shoal group at the origin
with unit scale, no terrain sampler, no temple and no dangerous
entities. -/
def envNone : ShoalEnv := ⟨defaultOptions, 0, 1, none, none, []⟩

/-- A single fish just inside the left wall, swimming away from it at
exactly maxSpeed. -/
def cexState : ShoalState :=
  ⟨[⟨-99, 0, 0⟩], [⟨80, 0, 0⟩], [0], [0], [false], [0], false, 0⟩

end MyShoal

/-! ### Basic lemmas about the vector embedding -/

namespace MyShoal

namespace Vec3

@[simp] theorem zero_def : (0 : Vec3) = ⟨0, 0, 0⟩ := rfl

@[simp] theorem add_mk (a b c d e f : ℝ) :
    ((⟨a, b, c⟩ : Vec3) + ⟨d, e, f⟩) = ⟨a + d, b + e, c + f⟩ := rfl

@[simp] theorem sub_mk (a b c d e f : ℝ) :
    ((⟨a, b, c⟩ : Vec3) - ⟨d, e, f⟩) = ⟨a - d, b - e, c - f⟩ := rfl

@[simp] theorem smul_mk (r a b c : ℝ) : (r • (⟨a, b, c⟩ : Vec3)) = ⟨r * a, r * b, r * c⟩ := rfl

theorem add_x (v w : Vec3) : (v + w).x = v.x + w.x := rfl

theorem add_y (v w : Vec3) : (v + w).y = v.y + w.y := rfl

theorem add_z (v w : Vec3) : (v + w).z = v.z + w.z := rfl

theorem smul_x (r : ℝ) (v : Vec3) : (r • v).x = r * v.x := rfl

theorem smul_y (r : ℝ) (v : Vec3) : (r • v).y = r * v.y := rfl

theorem smul_z (r : ℝ) (v : Vec3) : (r • v).z = r * v.z := rfl

theorem smulSmul (r s : ℝ) (v : Vec3) : r • (s • v) = (r * s) • v := by
  obtain ⟨a, b, c⟩ := v
  simp only [smul_mk, mk.injEq]
  exact ⟨by ring, by ring, by ring⟩

theorem oneSmul (v : Vec3) : (1 : ℝ) • v = v := by
  obtain ⟨a, b, c⟩ := v
  simp

theorem lengthSq_nonneg (v : Vec3) : 0 ≤ lengthSq v := by
  unfold lengthSq; positivity

theorem length_nonneg (v : Vec3) : 0 ≤ length v := Real.sqrt_nonneg _

theorem length_eq_zero_iff (v : Vec3) : length v = 0 ↔ v = ⟨0, 0, 0⟩ := by
  obtain ⟨a, b, c⟩ := v
  simp only [length, lengthSq, mk.injEq]
  rw [Real.sqrt_eq_zero (by positivity)]
  constructor
  · intro h
    refine ⟨?_, ?_, ?_⟩ <;> nlinarith [sq_nonneg a, sq_nonneg b, sq_nonneg c]
  · rintro ⟨rfl, rfl, rfl⟩
    ring

theorem length_smul (r : ℝ) (v : Vec3) : length (r • v) = |r| * length v := by
  obtain ⟨a, b, c⟩ := v
  simp only [smul_mk, length, lengthSq]
  rw [show (r * a) ^ 2 + (r * b) ^ 2 + (r * c) ^ 2 = r ^ 2 * (a ^ 2 + b ^ 2 + c ^ 2) by ring,
    Real.sqrt_mul (sq_nonneg r), Real.sqrt_sq_eq_abs]

theorem length_xonly (a : ℝ) : length ⟨a, 0, 0⟩ = |a| := by
  simp only [length, lengthSq]
  rw [show a ^ 2 + (0 : ℝ) ^ 2 + (0 : ℝ) ^ 2 = a ^ 2 by ring, Real.sqrt_sq_eq_abs]

theorem length_yonly (a : ℝ) : length ⟨0, a, 0⟩ = |a| := by
  simp only [length, lengthSq]
  rw [show (0 : ℝ) ^ 2 + a ^ 2 + (0 : ℝ) ^ 2 = a ^ 2 by ring, Real.sqrt_sq_eq_abs]

theorem abs_x_le_length (v : Vec3) : |v.x| ≤ length v := by
  rw [← Real.sqrt_sq_eq_abs]
  apply Real.sqrt_le_sqrt
  unfold lengthSq
  nlinarith [sq_nonneg v.y, sq_nonneg v.z]

theorem abs_y_le_length (v : Vec3) : |v.y| ≤ length v := by
  rw [← Real.sqrt_sq_eq_abs]
  apply Real.sqrt_le_sqrt
  unfold lengthSq
  nlinarith [sq_nonneg v.x, sq_nonneg v.z]

theorem abs_z_le_length (v : Vec3) : |v.z| ≤ length v := by
  rw [← Real.sqrt_sq_eq_abs]
  apply Real.sqrt_le_sqrt
  unfold lengthSq
  nlinarith [sq_nonneg v.x, sq_nonneg v.y]

theorem length_le_of_abs_le (v : Vec3) (B : ℝ) (hx : |v.x| ≤ B) (hy : |v.y| ≤ B)
    (hz : |v.z| ≤ B) : length v ≤ Real.sqrt 3 * B := by
  have hB : 0 ≤ B := le_trans (abs_nonneg _) hx
  have hx2 : v.x ^ 2 ≤ B ^ 2 := by rw [← sq_abs]; exact pow_le_pow_left₀ (abs_nonneg _) hx 2
  have hy2 : v.y ^ 2 ≤ B ^ 2 := by rw [← sq_abs]; exact pow_le_pow_left₀ (abs_nonneg _) hy 2
  have hz2 : v.z ^ 2 ≤ B ^ 2 := by rw [← sq_abs]; exact pow_le_pow_left₀ (abs_nonneg _) hz 2
  have h1 : lengthSq v ≤ 3 * B ^ 2 := by unfold lengthSq; linarith
  calc length v ≤ Real.sqrt (3 * B ^ 2) := Real.sqrt_le_sqrt h1
    _ = Real.sqrt 3 * B := by rw [Real.sqrt_mul (by norm_num), Real.sqrt_sq hB]

theorem clampLength_eq_self (v : Vec3) (hi : ℝ) (h : length v ≤ hi) :
    clampLength v 0 hi = v := by
  unfold clampLength
  by_cases h0 : length v = 0
  · have hv := (length_eq_zero_iff v).mp h0
    rw [hv] at h0 ⊢
    simp only [h0, if_pos rfl, divScalar, smul_mk]
    simp only [smul_mk, mk.injEq]
    norm_num
  · have hpos : 0 < length v := lt_of_le_of_ne (length_nonneg v) (Ne.symm h0)
    rw [if_neg h0, min_eq_right h, max_eq_right (length_nonneg v)]
    unfold divScalar
    rw [smulSmul]
    rw [show length v * (1 / length v) = 1 by field_simp]
    exact oneSmul v

theorem length_clampSpeed_le (M : ℝ) (v : Vec3) (hM : 0 ≤ M) :
    length (clampSpeed M v) ≤ M := by
  unfold clampSpeed
  split_ifs with h
  · rw [length_smul]
    have hl : 0 < length v := lt_of_le_of_lt hM h
    rw [abs_of_nonneg (div_nonneg hM hl.le), div_mul_cancel₀ _ (ne_of_gt hl)]
  · exact not_lt.mp h

end Vec3

/-! ### List helper lemmas (parallel-array bookkeeping) -/

theorem getD_set_self {α : Type} (l : List α) (i : ℕ) (a d : α) (h : i < l.length) :
    (l.set i a).getD i d = a := by
  induction l generalizing i with
  | nil => simp at h
  | cons hd tl ih =>
    cases i with
    | zero => rfl
    | succ n =>
      simp only [List.set, List.getD, List.getElem?_cons_succ]
      exact ih n (by simpa using h)

theorem getD_set_ne {α : Type} (l : List α) (i j : ℕ) (a d : α) (h : j ≠ i) :
    (l.set i a).getD j d = l.getD j d := by
  induction l generalizing i j with
  | nil => simp [List.set]
  | cons hd tl ih =>
    cases i with
    | zero =>
      cases j with
      | zero => exact absurd rfl h
      | succ m => rfl
    | succ n =>
      cases j with
      | zero => rfl
      | succ m =>
        simp only [List.set, List.getD, List.getElem?_cons_succ]
        exact ih n m (fun hc => h (by rw [hc]))

end MyShoal

/-! ### Panic decay (claim C4 infrastructure) -/

namespace MyShoal

theorem panicDecayStep_false (t : ℤ) : panicDecayStep (false, t) = (false, t) := rfl

theorem iterate_panicDecayStep_false (k : ℕ) (t : ℤ) :
    (panicDecayStep^[k]) (false, t) = (false, t) := by
  induction k with
  | zero => rfl
  | succ n ih => rw [Function.iterate_succ_apply, panicDecayStep_false, ih]

theorem iterate_panicDecayStep_true (k : ℕ) (D : ℤ) (hD : 1 ≤ D) (hk : k ≤ D.toNat) :
    (panicDecayStep^[k]) (true, D) =
      if k < D.toNat then (true, D - k) else (false, 0) := by
  induction k generalizing D with
  | zero =>
    have h : 0 < D.toNat := by omega
    simp [h]
  | succ n ih =>
    rw [Function.iterate_succ_apply]
    by_cases hD1 : D = 1
    · subst hD1
      rw [show panicDecayStep (true, (1 : ℤ)) = (false, 0) by norm_num [panicDecayStep]]
      rw [iterate_panicDecayStep_false]
      have h : ¬ (n + 1 < (1 : ℤ).toNat) := by omega
      simp [h]
    · have hD2 : 2 ≤ D := by omega
      rw [show panicDecayStep (true, D) = (true, D - 1) by
        simp only [panicDecayStep]
        rw [if_neg (by omega)]]
      rw [ih (D - 1) (by omega) (by omega)]
      by_cases hlt : n + 1 < D.toNat
      · have h2 : n < (D - 1).toNat := by omega
        rw [if_pos h2, if_pos hlt]
        have : D - 1 - (n : ℤ) = D - ((n : ℤ) + 1) := by ring
        simp [this]
      · have h2 : ¬ (n < (D - 1).toNat) := by omega
        rw [if_neg h2, if_neg hlt]

end MyShoal

/-! ### Population management (claim C9 infrastructure) -/

namespace MyShoal

theorem dropLast_append_singleton {α : Type} (l : List α) (a : α) :
    (l ++ [a]).dropLast = l := by
  induction l with
  | nil => rfl
  | cons hd tl ih =>
    cases tl with
    | nil => rfl
    | cons h2 t2 => simpa using ih

theorem popOne_createFish (opts : ShoalOptions) (r : FishRandom) (s : ShoalState) :
    popOne (createFish opts r s) = s := by
  unfold popOne createFish
  simp only [dropLast_append_singleton]

theorem popN_popOne_comm (k : ℕ) (s : ShoalState) :
    popN k (popOne s) = popOne (popN k s) := by
  induction k generalizing s with
  | zero => rfl
  | succ n ih =>
    show popN n (popOne (popOne s)) = popOne (popN n (popOne s))
    exact ih (popOne s)

theorem popN_addFish (opts : ShoalOptions) (rnds : List FishRandom) (s : ShoalState) :
    popN rnds.length (addFish opts rnds s) = s := by
  induction rnds generalizing s with
  | nil => rfl
  | cons r rs ih =>
    show popN (rs.length + 1) (addFish opts rs (createFish opts r s)) = s
    rw [show popN (rs.length + 1) (addFish opts rs (createFish opts r s)) =
      popOne (popN rs.length (addFish opts rs (createFish opts r s))) by
        rw [popN, popN_popOne_comm]]
    rw [ih (createFish opts r s), popOne_createFish]

theorem addFish_fishPos_length (opts : ShoalOptions) (rnds : List FishRandom) (s : ShoalState) :
    (addFish opts rnds s).fishPos.length = s.fishPos.length + rnds.length := by
  induction rnds generalizing s with
  | nil => rfl
  | cons r rs ih =>
    show (addFish opts rs (createFish opts r s)).fishPos.length = s.fishPos.length + (rs.length + 1)
    rw [ih (createFish opts r s)]
    show (s.fishPos ++ [generateRandomPosition opts r.posSamples]).length + rs.length
      = s.fishPos.length + (rs.length + 1)
    simp only [List.length_append, List.length_singleton]
    omega

/-! ### Spawn-position loop (claim C10 infrastructure) -/

theorem genPosLoop_spec (areaSize height : ℝ) (samples : ℕ → ℝ × ℝ × ℝ) :
    ∀ fuel attempts, attempts + fuel = 100 →
    ∀ j, attempts ≤ j → j < 100 →
    (∀ k, attempts ≤ k → k < j → ¬ posQualifies areaSize height samples k) →
    (posQualifies areaSize height samples j ∨ j = 99) →
    genPosLoop areaSize height samples attempts fuel = genPosSample areaSize height samples j := by
  intro fuel
  induction fuel with
  | zero =>
    intro attempts h100 j haj hj100 _ _
    omega
  | succ n ih =>
    intro attempts h100 j haj hj100 hmin hacc
    simp only [genPosLoop]
    by_cases hq : posQualifies areaSize height samples attempts
    · have hj : j = attempts := by
        by_contra hne
        exact hmin attempts le_rfl (lt_of_le_of_ne haj (Ne.symm hne)) hq
      subst hj
      unfold posQualifies at hq
      rw [if_pos (Or.inl hq)]
    · by_cases h99 : 100 ≤ attempts + 1
      · have hj : j = attempts := by omega
        subst hj
        rw [if_pos (Or.inr h99)]
      · have hcond : ¬ (120 < Real.sqrt ((genPosSample areaSize height samples attempts).x ^ 2
            + (genPosSample areaSize height samples attempts).z ^ 2) ∨ 100 ≤ attempts + 1) := by
          push_neg
          refine ⟨?_, by omega⟩
          unfold posQualifies at hq
          exact not_lt.mp hq
        rw [if_neg hcond]
        have haj2 : attempts + 1 ≤ j := by
          rcases hacc with hqj | h9
          · rcases Nat.lt_or_ge attempts j with h | h
            · omega
            · have : j = attempts := by omega
              exact absurd (this ▸ hqj) hq
          · omega
        exact ih (attempts + 1) (by omega) j haj2 hj100
          (fun k hk1 hk2 => hmin k (by omega) hk2) hacc

end MyShoal

/-! ### Claims C4, C9, C10 -/

namespace MyShoal

/-- C4: the danger-evasion trigger writes the flag true and the full
panicDuration into the timer regardless of the previous panic state (so a
re-trigger resets rather than accumulates the countdown), and under the
per-tick decay step of update the flag then stays set for exactly
panicDuration ticks: it is still set after k < panicDuration ticks and
clears at tick T + panicDuration. -/
theorem claim_C4 (opts : ShoalOptions) (hD : 1 ≤ opts.panicDuration) :
    (∀ k : ℕ, k ≤ opts.panicDuration.toNat →
      (((panicDecayStep^[k]) (true, opts.panicDuration)).1 = true ↔
        k < opts.panicDuration.toNat))
    ∧ (∀ (acc : DangerAcc) (fishW entPos : Vec3),
        Vec3.dist fishW entPos < opts.dangerDetectionDistance →
        Vec3.dist fishW entPos < opts.dangerEvasionDistance →
        Vec3.dist fishW entPos < opts.dangerEvasionDistance * (1 / 2) →
        (dangerStep opts fishW acc (true, entPos)).panic = true ∧
        (dangerStep opts fishW acc (true, entPos)).timer = opts.panicDuration) := by
  constructor
  · intro k hk
    rw [iterate_panicDecayStep_true k opts.panicDuration hD hk]
    by_cases h : k < opts.panicDuration.toNat
    · simp [h]
    · simp [h]
  · intro acc fishW entPos h1 h2 h3
    simp only [dangerStep]
    rw [if_pos h1, if_pos h2, if_pos h3]
    exact ⟨rfl, rfl⟩

/-- Witness for C4 at the default configuration: panicDuration = 120,
and after exactly 120 decay ticks the flag is no longer set. -/
theorem claim_C4_witness :
    1 ≤ defaultOptions.panicDuration ∧
      (((panicDecayStep^[120]) (true, defaultOptions.panicDuration)).1 = true ↔
        120 < defaultOptions.panicDuration.toNat) :=
  ⟨by norm_num [defaultOptions],
    (claim_C4 defaultOptions (by norm_num [defaultOptions])).1 120 (by norm_num [defaultOptions])⟩

/-- C9: addFish(n) followed by removeFish(n) restores the whole shoal
state: the population count returns to its original value and every
surviving entry of every parallel array (position, velocity,
acceleration, wander angle, panic flag, panic timer) is unchanged,
because removal pops from the tail with no renumbering. -/
theorem claim_C9 (opts : ShoalOptions) (rnds : List FishRandom) (s : ShoalState) :
    removeFish rnds.length (addFish opts rnds s) = s := by
  unfold removeFish
  rw [addFish_fishPos_length]
  rw [show min rnds.length (s.fishPos.length + rnds.length) = rnds.length by omega]
  exact popN_addFish opts rnds s

/-- C10: spawn-position generation makes at most 100 attempts: it returns
the first sample whose horizontal distance from the origin exceeds the
120-unit dead-zone radius, and if none of the first 99 samples qualifies
it accepts the 100th (last) sample unconditionally instead of looping. -/
theorem claim_C10 (opts : ShoalOptions) (samples : ℕ → ℝ × ℝ × ℝ) (j : ℕ)
    (hj : j < 100)
    (hmin : ∀ k, k < j → ¬ posQualifies opts.areaSize opts.height samples k)
    (hacc : posQualifies opts.areaSize opts.height samples j ∨ j = 99) :
    generateRandomPosition opts samples = genPosSample opts.areaSize opts.height samples j := by
  unfold generateRandomPosition
  exact genPosLoop_spec opts.areaSize opts.height samples 100 0 rfl j (Nat.zero_le j) hj
    (fun k _ hk2 => hmin k hk2) hacc

/-- Witness for C10: with every draw equal to (1, 1/2, 1/2) the sampled
positions sit 100 units from the origin, inside the 120-unit dead zone,
so the loop runs out its 100-attempt cap and accepts the last sample. -/
theorem claim_C10_witness :
    (99 < 100) ∧ generateRandomPosition defaultOptions (fun _ => (1, 1 / 2, 1 / 2)) =
      genPosSample defaultOptions.areaSize defaultOptions.height
        (fun _ => (1, 1 / 2, 1 / 2)) 99 := by
  have hnq : ∀ k : ℕ, ¬ posQualifies defaultOptions.areaSize defaultOptions.height
      (fun _ => (1, 1 / 2, 1 / 2)) k := by
    intro k
    unfold posQualifies genPosSample
    simp only [defaultOptions]
    intro h
    rw [show ((1 : ℝ) - 1 / 2) * 200 = 100 by norm_num,
      show ((1 : ℝ) / 2 - 1 / 2) * 200 = 0 by norm_num] at h
    rw [show (100 : ℝ) ^ 2 + 0 ^ 2 = 100 ^ 2 by norm_num,
      Real.sqrt_sq (by norm_num : (0 : ℝ) ≤ 100)] at h
    norm_num at h
  exact ⟨by norm_num, claim_C10 defaultOptions _ 99 (by norm_num) (fun k _ => hnq k) (Or.inr rfl)⟩

end MyShoal

/-! ### Frame lemmas for the update loop -/

namespace MyShoal

theorem stepAgent_fishPos_length (env : ShoalEnv) (dt r : ℝ) (s : ShoalState) (i : ℕ) :
    (stepAgent env dt r s i).fishPos.length = s.fishPos.length := by
  simp only [stepAgent]
  exact List.length_set _ _ _

theorem stepAgent_velocities_length (env : ShoalEnv) (dt r : ℝ) (s : ShoalState) (i : ℕ) :
    (stepAgent env dt r s i).velocities.length = s.velocities.length := by
  simp only [stepAgent]
  exact List.length_set _ _ _

theorem stepAgent_panicMode_length (env : ShoalEnv) (dt r : ℝ) (s : ShoalState) (i : ℕ) :
    (stepAgent env dt r s i).panicMode.length = s.panicMode.length := by
  simp only [stepAgent]
  exact List.length_set _ _ _

theorem stepAgent_posAt_ne (env : ShoalEnv) (dt r : ℝ) (s : ShoalState) (i j : ℕ)
    (h : j ≠ i) : posAt (stepAgent env dt r s i) j = posAt s j := by
  simp only [stepAgent, posAt]
  exact getD_set_ne _ _ _ _ _ h

theorem stepAgent_velAt_ne (env : ShoalEnv) (dt r : ℝ) (s : ShoalState) (i j : ℕ)
    (h : j ≠ i) : velAt (stepAgent env dt r s i) j = velAt s j := by
  simp only [stepAgent, velAt]
  exact getD_set_ne _ _ _ _ _ h

theorem stepAgent_panicAt_ne (env : ShoalEnv) (dt r : ℝ) (s : ShoalState) (i j : ℕ)
    (h : j ≠ i) : panicAt (stepAgent env dt r s i) j = panicAt s j := by
  simp only [stepAgent, panicAt]
  exact getD_set_ne _ _ _ _ _ h

theorem runLoop_posAt_notMem (env : ShoalEnv) (dt : ℝ) (draws : ℕ → ℝ) (l : List ℕ)
    (s : ShoalState) (i : ℕ) (h : i ∉ l) :
    posAt (runLoop env dt draws l s) i = posAt s i := by
  induction l generalizing s with
  | nil => rfl
  | cons a t ih =>
    show posAt (runLoop env dt draws t (stepAgent env dt (draws a) s a)) i = posAt s i
    rw [ih (stepAgent env dt (draws a) s a) (fun hm => h (List.mem_cons_of_mem a hm))]
    exact stepAgent_posAt_ne env dt (draws a) s a i
      (fun he => h (he ▸ List.mem_cons_self a t))

theorem runLoop_velAt_notMem (env : ShoalEnv) (dt : ℝ) (draws : ℕ → ℝ) (l : List ℕ)
    (s : ShoalState) (i : ℕ) (h : i ∉ l) :
    velAt (runLoop env dt draws l s) i = velAt s i := by
  induction l generalizing s with
  | nil => rfl
  | cons a t ih =>
    show velAt (runLoop env dt draws t (stepAgent env dt (draws a) s a)) i = velAt s i
    rw [ih (stepAgent env dt (draws a) s a) (fun hm => h (List.mem_cons_of_mem a hm))]
    exact stepAgent_velAt_ne env dt (draws a) s a i
      (fun he => h (he ▸ List.mem_cons_self a t))

theorem runLoop_panicAt_notMem (env : ShoalEnv) (dt : ℝ) (draws : ℕ → ℝ) (l : List ℕ)
    (s : ShoalState) (i : ℕ) (h : i ∉ l) :
    panicAt (runLoop env dt draws l s) i = panicAt s i := by
  induction l generalizing s with
  | nil => rfl
  | cons a t ih =>
    show panicAt (runLoop env dt draws t (stepAgent env dt (draws a) s a)) i = panicAt s i
    rw [ih (stepAgent env dt (draws a) s a) (fun hm => h (List.mem_cons_of_mem a hm))]
    exact stepAgent_panicAt_ne env dt (draws a) s a i
      (fun he => h (he ▸ List.mem_cons_self a t))

/-! ### Boundary clamp bounds (claim C2 infrastructure) -/

theorem hardClampAxis_fst_mem (half x v : ℝ) (h : 1 / 20 ≤ half) :
    |(hardClampAxis half x v).1| ≤ half := by
  unfold hardClampAxis
  split_ifs with h1 h2
  · rw [abs_le]
    constructor <;> linarith
  · rw [abs_le]
    constructor <;> linarith
  · rw [not_lt] at h1 h2
    rw [abs_le]
    constructor <;> linarith

theorem boundaryPhase_fst_bounds (halfArea halfHeight : ℝ) (pos vel : Vec3)
    (hA : 1 / 20 ≤ halfArea) (hH : 1 / 20 ≤ halfHeight) :
    |(boundaryPhase halfArea halfHeight pos vel).1.x| ≤ halfArea ∧
    |(boundaryPhase halfArea halfHeight pos vel).1.y| ≤ halfHeight ∧
    |(boundaryPhase halfArea halfHeight pos vel).1.z| ≤ halfArea := by
  unfold boundaryPhase
  exact ⟨hardClampAxis_fst_mem _ _ _ hA, hardClampAxis_fst_mem _ _ _ hH,
    hardClampAxis_fst_mem _ _ _ hA⟩

theorem stepAgent_pos_in_box (env : ShoalEnv) (dt r : ℝ) (s : ShoalState) (i : ℕ)
    (hi : i < s.fishPos.length) (hA : 1 / 10 ≤ env.opts.areaSize)
    (hH : 1 / 10 ≤ env.opts.height) :
    |(posAt (stepAgent env dt r s i) i).x| ≤ env.opts.areaSize * (1 / 2) ∧
    |(posAt (stepAgent env dt r s i) i).y| ≤ env.opts.height * (1 / 2) ∧
    |(posAt (stepAgent env dt r s i) i).z| ≤ env.opts.areaSize * (1 / 2) := by
  simp only [stepAgent, posAt]
  rw [getD_set_self _ _ _ _ hi]
  exact boundaryPhase_fst_bounds _ _ _ _ (by linarith) (by linarith)

theorem runLoop_pos_in_box (env : ShoalEnv) (dt : ℝ) (draws : ℕ → ℝ)
    (hA : 1 / 10 ≤ env.opts.areaSize) (hH : 1 / 10 ≤ env.opts.height) :
    ∀ (l : List ℕ) (s : ShoalState), l.Nodup → (∀ j ∈ l, j < s.fishPos.length) →
    ∀ i ∈ l,
      |(posAt (runLoop env dt draws l s) i).x| ≤ env.opts.areaSize * (1 / 2) ∧
      |(posAt (runLoop env dt draws l s) i).y| ≤ env.opts.height * (1 / 2) ∧
      |(posAt (runLoop env dt draws l s) i).z| ≤ env.opts.areaSize * (1 / 2) := by
  intro l
  induction l with
  | nil => intro s _ _ i hi; simp at hi
  | cons a t ih =>
    intro s hnd hlen i hi
    rw [show runLoop env dt draws (a :: t) s
      = runLoop env dt draws t (stepAgent env dt (draws a) s a) from rfl]
    rcases List.mem_cons.mp hi with rfl | hit
    · have hna : i ∉ t := (List.nodup_cons.mp hnd).1
      rw [runLoop_posAt_notMem env dt draws t _ i hna]
      exact stepAgent_pos_in_box env dt (draws i) s i (hlen i (List.mem_cons_self i t)) hA hH
    · exact ih (stepAgent env dt (draws a) s a) (List.nodup_cons.mp hnd).2
        (fun j hj => by
          rw [stepAgent_fishPos_length]
          exact hlen j (List.mem_cons_of_mem a hj)) i hit

theorem bvhPhase_fishPos (opts : ShoalOptions) (s : ShoalState) :
    (bvhPhase opts s).fishPos = s.fishPos := by
  unfold bvhPhase
  split_ifs <;> rfl

theorem bvhPhase_velocities (opts : ShoalOptions) (s : ShoalState) :
    (bvhPhase opts s).velocities = s.velocities := by
  unfold bvhPhase
  split_ifs <;> rfl

theorem bvhPhase_panicMode (opts : ShoalOptions) (s : ShoalState) :
    (bvhPhase opts s).panicMode = s.panicMode := by
  unfold bvhPhase
  split_ifs <;> rfl

/-- C2: after every tick of update, every agent position lies within
[-halfExtent, halfExtent] on every axis (areaSize/2 on x and z, height/2
on y): the hard boundary clamp of step 11 forces any escaped coordinate
back to 0.1 inside the wall, so the box bound holds however large the
pre-clamp velocity was. -/
theorem claim_C2 (env : ShoalEnv) (dt : ℝ) (draws : ℕ → ℝ) (s : ShoalState)
    (hA : 1 / 10 ≤ env.opts.areaSize) (hH : 1 / 10 ≤ env.opts.height)
    (i : ℕ) (hi : i < s.fishPos.length) :
    |(posAt (update env dt draws s) i).x| ≤ env.opts.areaSize * (1 / 2) ∧
    |(posAt (update env dt draws s) i).y| ≤ env.opts.height * (1 / 2) ∧
    |(posAt (update env dt draws s) i).z| ≤ env.opts.areaSize * (1 / 2) := by
  simp only [update]
  apply runLoop_pos_in_box env dt draws hA hH _ _ (List.nodup_range _)
  · intro j hj
    rw [bvhPhase_fishPos] at hj ⊢
    exact List.mem_range.mp hj
  · rw [bvhPhase_fishPos]
    exact List.mem_range.mpr hi

/-- Witness for C2: one fish one unit from the left wall moving at full
speed still ends the tick inside the box. -/
theorem claim_C2_witness :
    (1 / 10 : ℝ) ≤ envNone.opts.areaSize ∧ (1 / 10 : ℝ) ≤ envNone.opts.height ∧
    0 < cexState.fishPos.length ∧
    (|(posAt (update envNone (1 / 10) (fun _ => 1 / 2) cexState) 0).x|
        ≤ envNone.opts.areaSize * (1 / 2) ∧
      |(posAt (update envNone (1 / 10) (fun _ => 1 / 2) cexState) 0).y|
        ≤ envNone.opts.height * (1 / 2) ∧
      |(posAt (update envNone (1 / 10) (fun _ => 1 / 2) cexState) 0).z|
        ≤ envNone.opts.areaSize * (1 / 2)) :=
  ⟨by norm_num [envNone, defaultOptions], by norm_num [envNone, defaultOptions],
    by simp [cexState],
    claim_C2 envNone (1 / 10) (fun _ => 1 / 2) cexState
      (by norm_num [envNone, defaultOptions]) (by norm_num [envNone, defaultOptions])
      0 (by simp [cexState])⟩

end MyShoal

/-! ### End-of-tick velocity bounds (claim C1 infrastructure) -/

namespace MyShoal

theorem softTurnAxis_abs_le (half x v M c : ℝ) (hv : |v| ≤ M) (hx1 : -half - c ≤ x)
    (hx2 : x ≤ half + c) (hc : 0 ≤ c) :
    |softTurnAxis half x v| ≤ M + (1 / 2) * (1 + c / 20) := by
  unfold softTurnAxis
  have hM : 0 ≤ M := le_trans (abs_nonneg v) hv
  split_ifs with h1 h2
  · have hd1 : 0 < (1 / 2) * (1 - (x + half) / 20) := by nlinarith
    have hd2 : (1 / 2) * (1 - (x + half) / 20) ≤ (1 / 2) * (1 + c / 20) := by nlinarith
    calc |v + (1 / 2) * (1 - (x + half) / 20)|
        ≤ |v| + |(1 / 2) * (1 - (x + half) / 20)| := abs_add _ _
      _ ≤ M + (1 / 2) * (1 + c / 20) := by rw [abs_of_pos hd1]; linarith
  · have hd1 : 0 < (1 / 2) * (1 - (half - x) / 20) := by nlinarith
    have hd2 : (1 / 2) * (1 - (half - x) / 20) ≤ (1 / 2) * (1 + c / 20) := by nlinarith
    calc |v - (1 / 2) * (1 - (half - x) / 20)|
        ≤ |v| + |(1 / 2) * (1 - (half - x) / 20)| := abs_sub _ _
      _ ≤ M + (1 / 2) * (1 + c / 20) := by rw [abs_of_pos hd1]; linarith
  · calc |v| ≤ M := hv
      _ ≤ M + (1 / 2) * (1 + c / 20) := by nlinarith

theorem hardClampAxis_snd_abs_le (half x v B : ℝ) (hv : |v| ≤ B) (hB : 1 / 10 ≤ B) :
    |(hardClampAxis half x v).2| ≤ B := by
  unfold hardClampAxis
  split_ifs with h1 h2
  · have hpos : (0 : ℝ) < max (1 / 10) v := lt_of_lt_of_le (by norm_num) (le_max_left _ _)
    rw [abs_of_pos hpos]
    exact max_le hB (le_trans (le_abs_self v) hv)
  · have hneg : min (-(1 / 10 : ℝ)) v < 0 :=
      lt_of_le_of_lt (min_le_left _ _) (by norm_num)
    rw [abs_of_neg hneg]
    rcases min_cases (-(1 / 10 : ℝ)) v with ⟨hm, _⟩ | ⟨hm, _⟩
    · rw [hm]; norm_num; exact hB
    · rw [hm]
      calc -v ≤ |v| := neg_le_abs v
        _ ≤ B := hv
  · exact hv

theorem tailPipeline_bound (halfArea halfHeight fixedDelta : ℝ) (pos vel1 : Vec3) (M : ℝ)
    (hM : 0 ≤ M) (hd1 : 0 ≤ fixedDelta) (hd2 : fixedDelta ≤ 1 / 10)
    (hbx : |pos.x| ≤ halfArea) (hby : |pos.y| ≤ halfHeight) (hbz : |pos.z| ≤ halfArea) :
    Vec3.length (boundaryPhase halfArea halfHeight (pos + fixedDelta • clampSpeed M vel1)
        (clampSpeed M vel1)).2 ≤ Real.sqrt 3 * ((401 / 400) * M + 1 / 2) := by
  have hlen : Vec3.length (clampSpeed M vel1) ≤ M := Vec3.length_clampSpeed_le M vel1 hM
  set vel2 := clampSpeed M vel1 with hv2
  have hvx : |vel2.x| ≤ M := le_trans (Vec3.abs_x_le_length vel2) hlen
  have hvy : |vel2.y| ≤ M := le_trans (Vec3.abs_y_le_length vel2) hlen
  have hvz : |vel2.z| ≤ M := le_trans (Vec3.abs_z_le_length vel2) hlen
  set pos1 := pos + fixedDelta • vel2 with hp1
  have hmove : ∀ a : ℝ, |a| ≤ M → |fixedDelta * a| ≤ M / 10 := by
    intro a ha
    rw [abs_mul, abs_of_nonneg hd1]
    calc fixedDelta * |a| ≤ (1 / 10) * M := by
          apply mul_le_mul hd2 ha (abs_nonneg a) (by norm_num)
      _ = M / 10 := by ring
  have hpx : -halfArea - M / 10 ≤ pos1.x ∧ pos1.x ≤ halfArea + M / 10 := by
    have h1 := abs_le.mp hbx
    have h2 := abs_le.mp (hmove vel2.x hvx)
    constructor <;> simp only [hp1, Vec3.add_x, Vec3.smul_x] <;> linarith
  have hpy : -halfHeight - M / 10 ≤ pos1.y ∧ pos1.y ≤ halfHeight + M / 10 := by
    have h1 := abs_le.mp hby
    have h2 := abs_le.mp (hmove vel2.y hvy)
    constructor <;> simp only [hp1, Vec3.add_y, Vec3.smul_y] <;> linarith
  have hpz : -halfArea - M / 10 ≤ pos1.z ∧ pos1.z ≤ halfArea + M / 10 := by
    have h1 := abs_le.mp hbz
    have h2 := abs_le.mp (hmove vel2.z hvz)
    constructor <;> simp only [hp1, Vec3.add_z, Vec3.smul_z] <;> linarith
  have hc : (0 : ℝ) ≤ M / 10 := by positivity
  have hsx : |softTurnAxis halfArea pos1.x vel2.x| ≤ (401 / 400) * M + 1 / 2 := by
    have := softTurnAxis_abs_le halfArea pos1.x vel2.x M (M / 10) hvx hpx.1 hpx.2 hc
    calc |softTurnAxis halfArea pos1.x vel2.x| ≤ M + (1 / 2) * (1 + (M / 10) / 20) := this
      _ = (401 / 400) * M + 1 / 2 := by ring
  have hsy : |softTurnAxis halfHeight pos1.y vel2.y| ≤ (401 / 400) * M + 1 / 2 := by
    have := softTurnAxis_abs_le halfHeight pos1.y vel2.y M (M / 10) hvy hpy.1 hpy.2 hc
    calc |softTurnAxis halfHeight pos1.y vel2.y| ≤ M + (1 / 2) * (1 + (M / 10) / 20) := this
      _ = (401 / 400) * M + 1 / 2 := by ring
  have hsz : |softTurnAxis halfArea pos1.z vel2.z| ≤ (401 / 400) * M + 1 / 2 := by
    have := softTurnAxis_abs_le halfArea pos1.z vel2.z M (M / 10) hvz hpz.1 hpz.2 hc
    calc |softTurnAxis halfArea pos1.z vel2.z| ≤ M + (1 / 2) * (1 + (M / 10) / 20) := this
      _ = (401 / 400) * M + 1 / 2 := by ring
  have hB10 : (1 / 10 : ℝ) ≤ (401 / 400) * M + 1 / 2 := by nlinarith
  unfold boundaryPhase
  apply Vec3.length_le_of_abs_le
  · exact hardClampAxis_snd_abs_le _ _ _ _ hsx hB10
  · exact hardClampAxis_snd_abs_le _ _ _ _ hsy hB10
  · exact hardClampAxis_snd_abs_le _ _ _ _ hsz hB10

end MyShoal

namespace MyShoal

theorem forcePhase_pos (env : ShoalEnv) (ps vs : List Vec3) (i : ℕ) (r : ℝ) (a : AgentState) :
    (forcePhase env ps vs i r a).2.pos = a.pos := rfl

theorem forcePhase_vel (env : ShoalEnv) (ps vs : List Vec3) (i : ℕ) (r : ℝ) (a : AgentState) :
    (forcePhase env ps vs i r a).2.vel = a.vel := rfl

theorem forcePhase_acc (env : ShoalEnv) (ps vs : List Vec3) (i : ℕ) (r : ℝ) (a : AgentState) :
    (forcePhase env ps vs i r a).2.acc = a.acc := rfl

theorem effMaxSpeed_nonneg (opts : ShoalOptions) (b : Bool) (hms : 0 ≤ opts.maxSpeed)
    (hpm : 0 ≤ opts.panicSpeedMultiplier) : 0 ≤ effMaxSpeed opts b := by
  unfold effMaxSpeed
  cases b
  · simpa using hms
  · simpa using mul_nonneg hms hpm

theorem stepAgent_vel_bound (env : ShoalEnv) (dt r : ℝ) (s : ShoalState) (i : ℕ)
    (hiv : i < s.velocities.length) (hip : i < s.panicMode.length)
    (hdt : 0 ≤ dt) (hms : 0 ≤ env.opts.maxSpeed) (hpm : 0 ≤ env.opts.panicSpeedMultiplier)
    (hbx : |(posAt s i).x| ≤ env.opts.areaSize * (1 / 2))
    (hby : |(posAt s i).y| ≤ env.opts.height * (1 / 2))
    (hbz : |(posAt s i).z| ≤ env.opts.areaSize * (1 / 2)) :
    Vec3.length (velAt (stepAgent env dt r s i) i)
      ≤ Real.sqrt 3 *
        ((401 / 400) * effMaxSpeed env.opts (panicAt (stepAgent env dt r s i) i) + 1 / 2) := by
  simp only [stepAgent, velAt, panicAt]
  rw [getD_set_self _ _ _ _ hiv, getD_set_self _ _ _ _ hip]
  simp only [forcePhase_pos]
  exact tailPipeline_bound _ _ _ _ _ _
    (effMaxSpeed_nonneg env.opts _ hms hpm)
    (le_min hdt (by norm_num)) (min_le_right dt (1 / 10)) hbx hby hbz

theorem runLoop_vel_bound (env : ShoalEnv) (dt : ℝ) (draws : ℕ → ℝ)
    (hdt : 0 ≤ dt) (hms : 0 ≤ env.opts.maxSpeed) (hpm : 0 ≤ env.opts.panicSpeedMultiplier) :
    ∀ (l : List ℕ) (s : ShoalState), l.Nodup →
    (∀ j ∈ l, j < s.velocities.length ∧ j < s.panicMode.length) →
    (∀ j ∈ l, |(posAt s j).x| ≤ env.opts.areaSize * (1 / 2) ∧
      |(posAt s j).y| ≤ env.opts.height * (1 / 2) ∧
      |(posAt s j).z| ≤ env.opts.areaSize * (1 / 2)) →
    ∀ i ∈ l, Vec3.length (velAt (runLoop env dt draws l s) i)
      ≤ Real.sqrt 3 *
        ((401 / 400) * effMaxSpeed env.opts (panicAt (runLoop env dt draws l s) i) + 1 / 2) := by
  intro l
  induction l with
  | nil => intro s _ _ _ i hi; simp at hi
  | cons a t ih =>
    intro s hnd hlen hbox i hi
    rw [show runLoop env dt draws (a :: t) s
      = runLoop env dt draws t (stepAgent env dt (draws a) s a) from rfl]
    rcases List.mem_cons.mp hi with rfl | hit
    · have hna : i ∉ t := (List.nodup_cons.mp hnd).1
      rw [runLoop_velAt_notMem env dt draws t _ i hna,
        runLoop_panicAt_notMem env dt draws t _ i hna]
      have hb := hbox i (List.mem_cons_self i t)
      exact stepAgent_vel_bound env dt (draws i) s i
        (hlen i (List.mem_cons_self i t)).1 (hlen i (List.mem_cons_self i t)).2
        hdt hms hpm hb.1 hb.2.1 hb.2.2
    · apply ih (stepAgent env dt (draws a) s a) (List.nodup_cons.mp hnd).2
      · intro j hj
        rw [stepAgent_velocities_length, stepAgent_panicMode_length]
        exact hlen j (List.mem_cons_of_mem a hj)
      · intro j hj
        have hja : j ≠ a := fun he => (List.nodup_cons.mp hnd).1 (he ▸ hj)
        rw [stepAgent_posAt_ne env dt (draws a) s a j hja]
        exact hbox j (List.mem_cons_of_mem a hj)
      · exact hit

end MyShoal

namespace MyShoal

/-- C1 (amended): the speed clamp of step 8 does enforce
`|velocity| ≤ effMaxSpeed` (maxSpeed, boosted by panicSpeedMultiplier
while panicking) at the point where it runs, for any force magnitude
computed before it; but steps 10 and 11 (the soft boundary turn and the
hard boundary clamp) modify the velocity after the clamp, so at the end
of the tick only the slightly weaker bound
`|velocity| ≤ sqrt 3 * ((401/400) * effMaxSpeed + 1/2)` holds (for ticks
starting inside the bounds box with a nonnegative dt).  The original
claim `|velocity| ≤ effMaxSpeed` at tick end is refuted by
claim_C1_counterexample. -/
theorem claim_C1_amended (env : ShoalEnv) (dt : ℝ) (draws : ℕ → ℝ) (s : ShoalState)
    (hdt : 0 ≤ dt) (hms : 0 ≤ env.opts.maxSpeed) (hpm : 0 ≤ env.opts.panicSpeedMultiplier)
    (hbox : ∀ j, j < s.fishPos.length →
      |(posAt s j).x| ≤ env.opts.areaSize * (1 / 2) ∧
      |(posAt s j).y| ≤ env.opts.height * (1 / 2) ∧
      |(posAt s j).z| ≤ env.opts.areaSize * (1 / 2))
    (hlv : s.velocities.length = s.fishPos.length)
    (hlp : s.panicMode.length = s.fishPos.length)
    (i : ℕ) (hi : i < s.fishPos.length) :
    (∀ (M : ℝ) (v : Vec3), 0 ≤ M → Vec3.length (clampSpeed M v) ≤ M) ∧
    Vec3.length (velAt (update env dt draws s) i)
      ≤ Real.sqrt 3 *
        ((401 / 400) * effMaxSpeed env.opts (panicAt (update env dt draws s) i) + 1 / 2) := by
  constructor
  · exact fun M v hM => Vec3.length_clampSpeed_le M v hM
  · simp only [update]
    apply runLoop_vel_bound env dt draws hdt hms hpm _ _ (List.nodup_range _)
    · intro j hj
      rw [bvhPhase_fishPos] at hj
      rw [bvhPhase_velocities, bvhPhase_panicMode, hlv, hlp]
      exact ⟨List.mem_range.mp hj, List.mem_range.mp hj⟩
    · intro j hj
      rw [bvhPhase_fishPos] at hj
      have hp : posAt (bvhPhase env.opts s) j = posAt s j := by
        unfold posAt
        rw [bvhPhase_fishPos]
      rw [hp]
      exact hbox j (List.mem_range.mp hj)
    · rw [bvhPhase_fishPos]
      exact List.mem_range.mpr hi

/-- Witness for the amended C1 at a concrete state. -/
theorem claim_C1_witness :
    (0 : ℝ) ≤ (1 / 10 : ℝ) ∧ (0 : ℝ) ≤ envNone.opts.maxSpeed ∧
    (0 : ℝ) ≤ envNone.opts.panicSpeedMultiplier ∧
    ((∀ (M : ℝ) (v : Vec3), 0 ≤ M → Vec3.length (clampSpeed M v) ≤ M) ∧
      Vec3.length (velAt (update envNone (1 / 10) (fun _ => 1 / 2) cexState) 0)
        ≤ Real.sqrt 3 *
          ((401 / 400) * effMaxSpeed envNone.opts
            (panicAt (update envNone (1 / 10) (fun _ => 1 / 2) cexState) 0) + 1 / 2)) := by
  refine ⟨by norm_num, by norm_num [envNone, defaultOptions],
    by norm_num [envNone, defaultOptions], ?_⟩
  apply claim_C1_amended envNone (1 / 10) (fun _ => 1 / 2) cexState (by norm_num)
    (by norm_num [envNone, defaultOptions]) (by norm_num [envNone, defaultOptions])
    ?_ (by simp [cexState]) (by simp [cexState]) 0 (by simp [cexState])
  intro j hj
  have hj0 : j = 0 := by
    simp [cexState] at hj
    exact hj
  subst hj0
  unfold posAt cexState envNone defaultOptions
  norm_num

end MyShoal

/-! ### Concrete-evaluation helpers for axis-aligned vectors -/

namespace MyShoal

theorem getD_cons_zero {α : Type} (a : α) (l : List α) (d : α) : (a :: l).getD 0 d = a := rfl

namespace Vec3

theorem normalize_xonly_pos (a : ℝ) (h : 0 < a) : normalize ⟨a, 0, 0⟩ = ⟨1, 0, 0⟩ := by
  unfold normalize divScalar
  rw [length_xonly, abs_of_pos h, if_neg (ne_of_gt h)]
  simp only [smul_mk, mk.injEq]
  refine ⟨by field_simp, by ring, by ring⟩

theorem normalize_yonly_pos (a : ℝ) (h : 0 < a) : normalize ⟨0, a, 0⟩ = ⟨0, 1, 0⟩ := by
  unfold normalize divScalar
  rw [length_yonly, abs_of_pos h, if_neg (ne_of_gt h)]
  simp only [smul_mk, mk.injEq]
  refine ⟨by ring, by field_simp, by ring⟩

theorem setLength_yonly_pos (a l : ℝ) (h : 0 < a) : setLength ⟨0, a, 0⟩ l = ⟨0, l, 0⟩ := by
  unfold setLength
  rw [normalize_yonly_pos a h]
  simp only [smul_mk, mk.injEq]
  refine ⟨by ring, by ring, by ring⟩

theorem clampLength_xonly_le (a hi : ℝ) (h0 : 0 ≤ a) (h : a ≤ hi) :
    clampLength ⟨a, 0, 0⟩ 0 hi = ⟨a, 0, 0⟩ :=
  clampLength_eq_self _ _ (by rw [length_xonly, abs_of_nonneg h0]; exact h)

theorem clampLength_xonly_gt (a hi : ℝ) (ha : 0 < a) (hhi : 0 ≤ hi) (h : hi < a) :
    clampLength ⟨a, 0, 0⟩ 0 hi = ⟨hi, 0, 0⟩ := by
  unfold clampLength divScalar
  rw [length_xonly, abs_of_pos ha, if_neg (ne_of_gt ha)]
  rw [min_eq_left h.le, max_eq_right hhi]
  simp only [smul_mk, mk.injEq]
  refine ⟨by field_simp, by ring, by ring⟩

end Vec3

theorem clampSpeed_xonly_gt (M a : ℝ) (_hM : 0 ≤ M) (ha : 0 < a) (h : M < a) :
    clampSpeed M ⟨a, 0, 0⟩ = ⟨M, 0, 0⟩ := by
  unfold clampSpeed
  rw [Vec3.length_xonly, abs_of_pos ha, if_pos h]
  simp only [Vec3.smul_mk, Vec3.mk.injEq]
  refine ⟨by field_simp, by ring, by ring⟩

theorem dangerEvasion_nil (opts : ShoalOptions) (w : Vec3) (p0 : Bool) (t0 : ℤ) :
    dangerEvasion opts [] w p0 t0 = (0, p0, t0) := rfl

end MyShoal

/-! ### Concrete one-tick evaluation (claim C1 counterexample) -/

namespace MyShoal

theorem vec_add_zero (v : Vec3) : v + (0 : Vec3) = v := by
  obtain ⟨a, b, c⟩ := v
  rw [Vec3.zero_def, Vec3.add_mk]
  norm_num

theorem vec_smul_zero (r : ℝ) : r • (0 : Vec3) = (0 : Vec3) := by
  rw [Vec3.zero_def, Vec3.smul_mk]
  norm_num

theorem flock_cex : flock defaultOptions [(⟨-99, 0, 0⟩ : Vec3)] [(⟨80, 0, 0⟩ : Vec3)] 0
    = ⟨99 / 10, 0, 0⟩ := by
  simp only [flock, List.length_cons, List.length_nil, show List.range 1 = [0] from rfl,
    List.foldl_cons, List.foldl_nil, getD_cons_zero, if_pos rfl, defaultOptions]
  norm_num
  rw [if_pos (show (0 : ℝ) < Vec3.lengthSq ⟨49 / 50, 0, 0⟩ by unfold Vec3.lengthSq; norm_num),
    Vec3.normalize_xonly_pos (49 / 50) (by norm_num)]
  norm_num [Vec3.smul_mk, Vec3.sub_mk]
  rw [Vec3.clampLength_xonly_gt (784 / 5) (99 / 10) (by norm_num) (by norm_num) (by norm_num)]
  rw [Vec3.zero_def, Vec3.add_mk]
  norm_num

theorem wander_cex : wander defaultOptions ⟨80, 0, 0⟩ 0 (1 / 2)
    = (⟨-56, 0, 0⟩, 0) := by
  simp only [wander, defaultOptions]
  norm_num
  rw [Vec3.normalize_xonly_pos 80 (by norm_num)]
  norm_num [Vec3.smul_mk, Vec3.add_mk]
  rw [Vec3.normalize_xonly_pos (14 / 5) (by norm_num)]
  norm_num [Vec3.smul_mk, Vec3.sub_mk]

theorem boundaryPhase_cex :
    boundaryPhase 100 50 ⟨-91, 0, 0⟩ ⟨80, 0, 0⟩ = (⟨-91, 0, 0⟩, ⟨3211 / 40, 0, 0⟩) := by
  unfold boundaryPhase softTurnAxis hardClampAxis
  norm_num

theorem stepAgent_cex_vel :
    velAt (stepAgent envNone (1 / 10) (1 / 2) cexState 0) 0 = ⟨3211 / 40, 0, 0⟩ := by
  simp only [stepAgent, velAt, envNone, cexState, forcePhase, worldPosOf, getD_cons_zero,
    List.set_cons_zero]
  norm_num [flock_cex, wander_cex, dangerEvasion_nil, avoidTerrain, avoidTemple, panicDecayStep]
  norm_num [defaultOptions, Vec3.zero_def, Vec3.add_mk, Vec3.smul_mk]
  simp only [vec_smul_zero, vec_add_zero]
  rw [Vec3.clampLength_xonly_le (43 / 10) 10 (by norm_num) (by norm_num)]
  norm_num [Vec3.add_mk, Vec3.smul_mk]
  rw [clampSpeed_xonly_gt 80 (8043 / 100) (by norm_num) (by norm_num) (by norm_num)]
  norm_num [Vec3.add_mk, Vec3.smul_mk]
  rw [boundaryPhase_cex]

theorem stepAgent_cex_panic :
    panicAt (stepAgent envNone (1 / 10) (1 / 2) cexState 0) 0 = false := by
  simp only [stepAgent, panicAt, envNone, cexState, forcePhase, worldPosOf, getD_cons_zero,
    List.set_cons_zero]
  norm_num [dangerEvasion_nil, panicDecayStep]

/-- C1 counterexample: one non-panicking fish at x = -99 (one unit from
the left wall of the default 200-unit box) swimming away from the wall at
exactly maxSpeed = 80.  During the tick the speed clamp brings the
velocity back to exactly 80, but the soft boundary turn of step 10 then
adds 0.275 to the x velocity, so the tick ends at speed 80.275 > 80: the
claimed invariant speed <= effective max speed fails at tick end. -/
theorem claim_C1_counterexample :
    ¬ (Vec3.length (velAt (update envNone (1 / 10) (fun _ => 1 / 2) cexState) 0)
        ≤ effMaxSpeed envNone.opts
            (panicAt (update envNone (1 / 10) (fun _ => 1 / 2) cexState) 0)) := by
  have hupd : update envNone (1 / 10) (fun _ => 1 / 2) cexState
      = stepAgent envNone (1 / 10) (1 / 2) cexState 0 := rfl
  rw [hupd, stepAgent_cex_panic, stepAgent_cex_vel, Vec3.length_xonly,
    abs_of_pos (by norm_num)]
  norm_num [effMaxSpeed, envNone, defaultOptions]

end MyShoal

/-! ### Claims C3 and C6 -/

namespace MyShoal

/-- C3 counterexample: computing the wander force is not read-only.
With random draw 1 the force phase advances the stored wander angle of
this agent from 0 to 0.15, so computing the five force contributions
does not leave the wander angle unchanged. -/
theorem claim_C3_counterexample :
    ¬ ((forcePhase envNone cexState.fishPos cexState.velocities 0 1
        ⟨⟨-99, 0, 0⟩, ⟨80, 0, 0⟩, 0, 0, false, 0⟩).2.wanderAngle = 0) := by
  simp only [forcePhase, wander]
  norm_num

/-- C3 (amended): flock, avoidTerrain and avoidTemple are pure, and the
force phase never writes position, velocity or acceleration (those are
written only by the integration and boundary steps of update); but
wander advances the per-agent wander angle, and dangerEvasion writes the
panic flag and timer, so the agent state written by the force phase is
exactly: wander angle from wander, panic state from dangerEvasion.  The
original claim that the wander angle and panic state are left unchanged
is refuted by claim_C3_counterexample. -/
theorem claim_C3_amended (env : ShoalEnv) (ps vs : List Vec3) (i : ℕ) (r : ℝ) (a : AgentState) :
    (forcePhase env ps vs i r a).2.pos = a.pos ∧
    (forcePhase env ps vs i r a).2.vel = a.vel ∧
    (forcePhase env ps vs i r a).2.acc = a.acc ∧
    (forcePhase env ps vs i r a).2.wanderAngle = (wander env.opts a.vel a.wanderAngle r).2 ∧
    (forcePhase env ps vs i r a).2.panicMode =
      (dangerEvasion env.opts env.dangers (worldPosOf env a.pos) a.panicMode a.panicTimer).2.1 ∧
    (forcePhase env ps vs i r a).2.panicTimer =
      (dangerEvasion env.opts env.dangers (worldPosOf env a.pos) a.panicMode a.panicTimer).2.2 :=
  ⟨rfl, rfl, rfl, rfl, rfl, rfl⟩

theorem avoidTerrain_eval (opts : ShoalOptions) (heightAt : ℝ → ℝ → ℝ) (w : Vec3)
    (hm : 0 < opts.terrainMargin) :
    (w.y < heightAt w.x w.z + opts.terrainMargin →
      avoidTerrain opts (some heightAt) w = ⟨0, min (opts.maxSpeed * 2) 5, 0⟩) ∧
    (¬ (w.y < heightAt w.x w.z + opts.terrainMargin) →
      avoidTerrain opts (some heightAt) w = 0) := by
  constructor
  · intro hbelow
    simp only [avoidTerrain]
    rw [if_pos hbelow]
    have h1 : 0 < (heightAt w.x w.z + opts.terrainMargin - w.y) / opts.terrainMargin :=
      div_pos (by linarith) hm
    have hq : 0 < ((heightAt w.x w.z + opts.terrainMargin - w.y) / opts.terrainMargin) ^ 2 * 5 :=
      mul_pos (pow_pos h1 2) (by norm_num)
    rw [if_pos (by rw [Vec3.length_yonly]; rwa [abs_of_pos hq])]
    exact Vec3.setLength_yonly_pos _ _ hq
  · intro h
    simp only [avoidTerrain]
    rw [if_neg h]
    rw [if_neg (by rw [Vec3.zero_def, Vec3.length_yonly]; norm_num)]

/-- C6 counterexample: with the default margin 3, a flat terrain of
height 0 and a fish at world y = 2.7, the penetration is 0.3, so a
magnitude proportional to (penetration/margin)^2 (with the 5.0 factor of
the source) would be (0.3/3)^2 * 5 = 0.05; but avoidTerrain rescales
every nonzero steer to length min(2*maxSpeed, 5) = 5, so the returned
force has magnitude 5: the force is not negligible near the threshold. -/
theorem claim_C6_counterexample :
    ¬ (Vec3.length (avoidTerrain defaultOptions (some fun _ _ => 0) ⟨0, 27 / 10, 0⟩)
        ≤ ((3 - 27 / 10) / 3) ^ 2 * 5) := by
  have hat : avoidTerrain defaultOptions (some fun _ _ => 0) ⟨0, 27 / 10, 0⟩ = ⟨0, 5, 0⟩ := by
    have h := (avoidTerrain_eval defaultOptions (fun _ _ => 0) ⟨0, 27 / 10, 0⟩
      (by norm_num [defaultOptions])).1 (by norm_num [defaultOptions])
    rw [h]
    norm_num [defaultOptions]
  rw [hat, Vec3.length_yonly]
  norm_num

/-- C6 (amended): whenever the fish is below terrainHeight(x,z) + margin
the terrain force is purely upward, but its magnitude is the constant
min(2*maxSpeed, 5.0) regardless of the penetration depth (the quadratic
(penetration/margin)^2 value only decides whether the steer is nonzero
before setLength overwrites its length); at or above the threshold the
force is zero.  The claimed quadratic ramp is refuted by
claim_C6_counterexample. -/
theorem claim_C6_amended (opts : ShoalOptions) (heightAt : ℝ → ℝ → ℝ) (w : Vec3)
    (hm : 0 < opts.terrainMargin) :
    (w.y < heightAt w.x w.z + opts.terrainMargin →
      avoidTerrain opts (some heightAt) w = ⟨0, min (opts.maxSpeed * 2) 5, 0⟩) ∧
    (¬ (w.y < heightAt w.x w.z + opts.terrainMargin) →
      avoidTerrain opts (some heightAt) w = 0) :=
  avoidTerrain_eval opts heightAt w hm

/-- Witness for the amended C6 at the default configuration. -/
theorem claim_C6_witness :
    0 < defaultOptions.terrainMargin ∧
    (((0 : ℝ) < (fun _ _ => (0 : ℝ)) (0 : ℝ) (0 : ℝ) + defaultOptions.terrainMargin →
      avoidTerrain defaultOptions (some fun _ _ => 0) ⟨0, 0, 0⟩
        = ⟨0, min (defaultOptions.maxSpeed * 2) 5, 0⟩) ∧
    (¬ ((0 : ℝ) < (fun _ _ => (0 : ℝ)) (0 : ℝ) (0 : ℝ) + defaultOptions.terrainMargin) →
      avoidTerrain defaultOptions (some fun _ _ => 0) ⟨0, 0, 0⟩ = 0)) :=
  ⟨by norm_num [defaultOptions],
    claim_C6_amended defaultOptions (fun _ _ => 0) ⟨0, 0, 0⟩ (by norm_num [defaultOptions])⟩

end MyShoal

namespace MyShoal

theorem vec_zero_add (v : Vec3) : (0 : Vec3) + v = v := by
  obtain ⟨a, b, c⟩ := v
  rw [Vec3.zero_def, Vec3.add_mk]
  norm_num

/-- C5: for one visible threat at distance d with 0 < d <
dangerEvasionDistance (and the evasion radius within the detection
radius, with the force-clamp products large enough not to bite, as under
the defaults), the evasion force equals
(5 * (1 - d/R)^2 / d) * (fishPos - threatPos): it points exactly along
the unit vector from the threat to the agent with magnitude
(1 - d/R)^2 times the fixed strength constant 5, that magnitude is
strictly decreasing in d, and panic is triggered exactly when
d < dangerEvasionDistance / 2. -/
theorem claim_C5 (opts : ShoalOptions) (fishW entityPos : Vec3) (t0 : ℤ)
    (hd0 : 0 < Vec3.dist fishW entityPos)
    (hdR : Vec3.dist fishW entityPos < opts.dangerEvasionDistance)
    (hRdet : opts.dangerEvasionDistance ≤ opts.dangerDetectionDistance)
    (hw1 : 5 ≤ opts.maxForce * opts.dangerEvasionWeight * (3 / 2))
    (hw2 : 5 ≤ opts.maxForce * opts.dangerEvasionWeight * opts.panicSpeedMultiplier) :
    (dangerEvasion opts [(true, entityPos)] fishW false t0).1
      = (5 * (1 - Vec3.dist fishW entityPos / opts.dangerEvasionDistance) ^ 2
          / Vec3.dist fishW entityPos) • (fishW - entityPos) ∧
    Vec3.length (dangerEvasion opts [(true, entityPos)] fishW false t0).1
      = 5 * (1 - Vec3.dist fishW entityPos / opts.dangerEvasionDistance) ^ 2 ∧
    ((dangerEvasion opts [(true, entityPos)] fishW false t0).2.1 = true ↔
      Vec3.dist fishW entityPos < opts.dangerEvasionDistance * (1 / 2)) ∧
    (∀ d1 d2 : ℝ, 0 < d1 → d1 < d2 → d2 < opts.dangerEvasionDistance →
      5 * (1 - d2 / opts.dangerEvasionDistance) ^ 2
        < 5 * (1 - d1 / opts.dangerEvasionDistance) ^ 2) := by
  set d := Vec3.dist fishW entityPos with hdd
  set R := opts.dangerEvasionDistance with hRR
  have hR : 0 < R := lt_trans hd0 hdR
  have hu0 : 0 < 1 - d / R := by
    have h := (div_lt_one hR).mpr hdR
    linarith
  have hu1 : 1 - d / R < 1 := by
    have h := div_pos hd0 hR
    linarith
  have hdet : d < opts.dangerDetectionDistance := lt_of_lt_of_le hdR hRdet
  have hwlen : Vec3.length (fishW - entityPos) = d := rfl
  have hnz : Vec3.length (fishW - entityPos) ≠ 0 := by rw [hwlen]; exact ne_of_gt hd0
  have hnorm : Vec3.normalize (fishW - entityPos) = (1 / d) • (fishW - entityPos) := by
    unfold Vec3.normalize Vec3.divScalar
    rw [if_neg hnz, hwlen]
  have hscal : (0 : Vec3) + ((1 - d / R) ^ 2 * 5) • Vec3.normalize (fishW - entityPos)
      = (5 * (1 - d / R) ^ 2 / d) • (fishW - entityPos) := by
    rw [hnorm, vec_zero_add, Vec3.smulSmul]
    congr 1
    field_simp
    ring
  have hpos : 0 < 5 * (1 - d / R) ^ 2 / d := by
    apply div_pos _ hd0
    nlinarith
  have hlenS : Vec3.length ((5 * (1 - d / R) ^ 2 / d) • (fishW - entityPos))
      = 5 * (1 - d / R) ^ 2 := by
    rw [Vec3.length_smul, hwlen, abs_of_pos hpos, div_mul_cancel₀ _ (ne_of_gt hd0)]
  have hle5 : 5 * (1 - d / R) ^ 2 ≤ 5 := by nlinarith
  have hSne : ¬ (Vec3.length ((0 : Vec3)
      + ((1 - d / R) ^ 2 * 5) • Vec3.normalize (fishW - entityPos)) = 0
      ∧ d < opts.dangerDetectionDistance) := by
    rw [hscal, hlenS]
    intro hcon
    nlinarith [hcon.1]
  have hSpos : 0 < Vec3.length ((0 : Vec3)
      + ((1 - d / R) ^ 2 * 5) • Vec3.normalize (fishW - entityPos)) := by
    rw [hscal, hlenS]
    nlinarith
  have hmono : ∀ d1 d2 : ℝ, 0 < d1 → d1 < d2 → d2 < R →
      5 * (1 - d2 / R) ^ 2 < 5 * (1 - d1 / R) ^ 2 := by
    intro d1 d2 h1 h2 h3
    have ha : 0 < 1 - d2 / R := by
      have h := (div_lt_one hR).mpr h3
      linarith
    have hb : d1 / R < d2 / R := by gcongr
    nlinarith
  rcases lt_or_ge d (R * (1 / 2)) with hpan | hpan
  · have hEval : dangerEvasion opts [(true, entityPos)] fishW false t0
        = ((5 * (1 - d / R) ^ 2 / d) • (fishW - entityPos), true, opts.panicDuration) := by
      simp only [dangerEvasion, List.foldl_cons, List.foldl_nil, dangerStep, if_true]
      rw [← hdd, ← hRR]
      rw [if_pos hdet, if_pos hdR, if_pos hpan]
      simp only [if_pos rfl]
      rw [if_neg hSne, if_pos hSpos]
      rw [hscal]
      rw [Vec3.clampLength_eq_self _ _ (by rw [hlenS]; exact le_trans hle5 (by simpa using hw2))]
      simp
    rw [hEval]
    exact ⟨rfl, hlenS, iff_of_true rfl hpan, hmono⟩
  · have hEval : dangerEvasion opts [(true, entityPos)] fishW false t0
        = ((5 * (1 - d / R) ^ 2 / d) • (fishW - entityPos), false, t0) := by
      simp only [dangerEvasion, List.foldl_cons, List.foldl_nil, dangerStep, if_true]
      rw [← hdd, ← hRR]
      rw [if_pos hdet, if_pos hdR, if_neg (not_lt.mpr hpan)]
      simp only [if_pos rfl]
      rw [if_neg hSne, if_pos hSpos]
      rw [hscal]
      rw [Vec3.clampLength_eq_self _ _ (by rw [hlenS]; exact le_trans hle5 (by simpa using hw1))]
      simp
    rw [hEval]
    exact ⟨rfl, hlenS, iff_of_false (by simp) (not_lt.mpr hpan), hmono⟩

/-- Witness for C5: the spec scenario, one threat at distance 5 with
evasion radius 25 under the default configuration. -/
theorem claim_C5_witness :
    0 < Vec3.dist ⟨5, 0, 0⟩ ⟨0, 0, 0⟩ ∧
    Vec3.dist ⟨5, 0, 0⟩ ⟨0, 0, 0⟩ < defaultOptions.dangerEvasionDistance ∧
    defaultOptions.dangerEvasionDistance ≤ defaultOptions.dangerDetectionDistance ∧
    (5 : ℝ) ≤ defaultOptions.maxForce * defaultOptions.dangerEvasionWeight * (3 / 2) ∧
    (5 : ℝ) ≤ defaultOptions.maxForce * defaultOptions.dangerEvasionWeight
      * defaultOptions.panicSpeedMultiplier ∧
    ((dangerEvasion defaultOptions [(true, ⟨0, 0, 0⟩)] ⟨5, 0, 0⟩ false 0).1
      = (5 * (1 - Vec3.dist ⟨5, 0, 0⟩ ⟨0, 0, 0⟩ / defaultOptions.dangerEvasionDistance) ^ 2
          / Vec3.dist ⟨5, 0, 0⟩ ⟨0, 0, 0⟩) • ((⟨5, 0, 0⟩ : Vec3) - ⟨0, 0, 0⟩) ∧
    Vec3.length (dangerEvasion defaultOptions [(true, ⟨0, 0, 0⟩)] ⟨5, 0, 0⟩ false 0).1
      = 5 * (1 - Vec3.dist ⟨5, 0, 0⟩ ⟨0, 0, 0⟩ / defaultOptions.dangerEvasionDistance) ^ 2 ∧
    ((dangerEvasion defaultOptions [(true, ⟨0, 0, 0⟩)] ⟨5, 0, 0⟩ false 0).2.1 = true ↔
      Vec3.dist ⟨5, 0, 0⟩ ⟨0, 0, 0⟩ < defaultOptions.dangerEvasionDistance * (1 / 2)) ∧
    (∀ d1 d2 : ℝ, 0 < d1 → d1 < d2 → d2 < defaultOptions.dangerEvasionDistance →
      5 * (1 - d2 / defaultOptions.dangerEvasionDistance) ^ 2
        < 5 * (1 - d1 / defaultOptions.dangerEvasionDistance) ^ 2)) := by
  have hd : Vec3.dist (⟨5, 0, 0⟩ : Vec3) ⟨0, 0, 0⟩ = 5 := by
    unfold Vec3.dist
    rw [Vec3.sub_mk]
    norm_num [Vec3.length_xonly]
  exact ⟨by rw [hd]; norm_num, by rw [hd]; norm_num [defaultOptions],
    by norm_num [defaultOptions], by norm_num [defaultOptions], by norm_num [defaultOptions],
    claim_C5 defaultOptions ⟨5, 0, 0⟩ ⟨0, 0, 0⟩ 0 (by rw [hd]; norm_num)
      (by rw [hd]; norm_num [defaultOptions]) (by norm_num [defaultOptions])
      (by norm_num [defaultOptions]) (by norm_num [defaultOptions])⟩

end MyShoal

/-! ### Claims C7 and C8 -/

namespace MyShoal

theorem stepAgent_dt_clamp (env : ShoalEnv) (dt r : ℝ) (s : ShoalState) (i : ℕ) :
    stepAgent env dt r s i = stepAgent env (min dt (1 / 10)) r s i := by
  have h : min (min dt (1 / 10)) (1 / 10) = min dt (1 / 10) := by
    rw [min_assoc, min_self]
  simp only [stepAgent, h]

theorem runLoop_dt_clamp (env : ShoalEnv) (dt : ℝ) (draws : ℕ → ℝ) (l : List ℕ)
    (s : ShoalState) :
    runLoop env dt draws l s = runLoop env (min dt (1 / 10)) draws l s := by
  induction l generalizing s with
  | nil => rfl
  | cons a t ih =>
    show runLoop env dt draws t (stepAgent env dt (draws a) s a) = _
    rw [stepAgent_dt_clamp, ih]
    rfl

/-- C7: every tick runs on the effective time step min(dt, 0.1)
regardless of the elapsed frame time (both per fish and for the whole
update call), and the per-fish tick is exactly the claimed sequence:
acceleration restarted from zero, panic timer decremented with the flag
cleared at zero, the five forces computed (wander and danger evasion
pre-scaled by wanderStrength and dangerEvasionWeight), summed and
clamped to 2*maxForce as the acceleration; velocity += acceleration*dt;
speed clamped to the (panic-boosted) maxSpeed; position += velocity*dt;
then the two-stage boundary handling of steps 10 and 11. -/
theorem claim_C7 (env : ShoalEnv) (dt r : ℝ) (draws : ℕ → ℝ) (s : ShoalState) (i : ℕ) :
    stepAgent env dt r s i = stepAgent env (min dt (1 / 10)) r s i ∧
    update env dt draws s = update env (min dt (1 / 10)) draws s ∧
    stepAgent env dt r s i =
      (let dt2 := min dt (1 / 10)
       let pd := panicDecayStep (s.panicMode.getD i false, s.panicTimer.getD i 0)
       let a0 : AgentState := ⟨s.fishPos.getD i 0, s.velocities.getD i 0, 0,
         s.wanderAngles.getD i 0, pd.1, pd.2⟩
       let fp := forcePhase env s.fishPos s.velocities i r a0
       let acc := Vec3.clampLength
         (fp.1.flockF + env.opts.wanderStrength • fp.1.wanderF + fp.1.terrainF
           + fp.1.templeF + env.opts.dangerEvasionWeight • fp.1.dangerF)
         0 (env.opts.maxForce * 2)
       let v1 := fp.2.vel + dt2 • acc
       let v2 := clampSpeed (effMaxSpeed env.opts fp.2.panicMode) v1
       let p1 := fp.2.pos + dt2 • v2
       let bp := boundaryPhase (env.opts.areaSize * (1 / 2)) (env.opts.height * (1 / 2)) p1 v2
       { s with
         fishPos := s.fishPos.set i bp.1,
         velocities := s.velocities.set i bp.2,
         accelerations := s.accelerations.set i acc,
         wanderAngles := s.wanderAngles.set i fp.2.wanderAngle,
         panicMode := s.panicMode.set i fp.2.panicMode,
         panicTimer := s.panicTimer.set i fp.2.panicTimer }) := by
  refine ⟨stepAgent_dt_clamp env dt r s i, ?_, rfl⟩
  simp only [update]
  rw [runLoop_dt_clamp]

theorem stepAgent_lists_congr (env : ShoalEnv) (dt r : ℝ) (s1 s2 : ShoalState) (i : ℕ)
    (h1 : s1.fishPos = s2.fishPos) (h2 : s1.velocities = s2.velocities)
    (h3 : s1.accelerations = s2.accelerations) (h4 : s1.wanderAngles = s2.wanderAngles)
    (h5 : s1.panicMode = s2.panicMode) (h6 : s1.panicTimer = s2.panicTimer) :
    (stepAgent env dt r s1 i).fishPos = (stepAgent env dt r s2 i).fishPos ∧
    (stepAgent env dt r s1 i).velocities = (stepAgent env dt r s2 i).velocities ∧
    (stepAgent env dt r s1 i).accelerations = (stepAgent env dt r s2 i).accelerations ∧
    (stepAgent env dt r s1 i).wanderAngles = (stepAgent env dt r s2 i).wanderAngles ∧
    (stepAgent env dt r s1 i).panicMode = (stepAgent env dt r s2 i).panicMode ∧
    (stepAgent env dt r s1 i).panicTimer = (stepAgent env dt r s2 i).panicTimer := by
  simp only [stepAgent]
  rw [h1, h2, h3, h4, h5, h6]
  exact ⟨rfl, rfl, rfl, rfl, rfl, rfl⟩

theorem runLoop_lists_congr (env : ShoalEnv) (dt : ℝ) (draws : ℕ → ℝ) (l : List ℕ)
    (s1 s2 : ShoalState)
    (h1 : s1.fishPos = s2.fishPos) (h2 : s1.velocities = s2.velocities)
    (h3 : s1.accelerations = s2.accelerations) (h4 : s1.wanderAngles = s2.wanderAngles)
    (h5 : s1.panicMode = s2.panicMode) (h6 : s1.panicTimer = s2.panicTimer) :
    (runLoop env dt draws l s1).fishPos = (runLoop env dt draws l s2).fishPos ∧
    (runLoop env dt draws l s1).velocities = (runLoop env dt draws l s2).velocities ∧
    (runLoop env dt draws l s1).accelerations = (runLoop env dt draws l s2).accelerations ∧
    (runLoop env dt draws l s1).wanderAngles = (runLoop env dt draws l s2).wanderAngles ∧
    (runLoop env dt draws l s1).panicMode = (runLoop env dt draws l s2).panicMode ∧
    (runLoop env dt draws l s1).panicTimer = (runLoop env dt draws l s2).panicTimer := by
  induction l generalizing s1 s2 with
  | nil => exact ⟨h1, h2, h3, h4, h5, h6⟩
  | cons a t ih =>
    have hs := stepAgent_lists_congr env dt (draws a) s1 s2 a h1 h2 h3 h4 h5 h6
    exact ih (stepAgent env dt (draws a) s1 a) (stepAgent env dt (draws a) s2 a)
      hs.1 hs.2.1 hs.2.2.1 hs.2.2.2.1 hs.2.2.2.2.1 hs.2.2.2.2.2

/-- C8: the per-tick force computation never consults the spatial index
(flock scans all fish inline, and the BVH phase of update only maintains
the rebuild counter), so the agent-visible outcome of update - all six
parallel arrays - is identical, not merely identical up to
floating-point summation order, for every BVH flag and frame-counter
value; in particular behavior with the BVH enabled equals the
brute-force configuration bvhEnabled = false for every population,
configuration and tick. -/
theorem claim_C8 (env : ShoalEnv) (dt : ℝ) (draws : ℕ → ℝ) (s : ShoalState)
    (b1 b2 : Bool) (c1 c2 : ℕ) :
    (update env dt draws { s with bvhEnabled := b1, bvhFrameCount := c1 }).fishPos
      = (update env dt draws { s with bvhEnabled := b2, bvhFrameCount := c2 }).fishPos ∧
    (update env dt draws { s with bvhEnabled := b1, bvhFrameCount := c1 }).velocities
      = (update env dt draws { s with bvhEnabled := b2, bvhFrameCount := c2 }).velocities ∧
    (update env dt draws { s with bvhEnabled := b1, bvhFrameCount := c1 }).accelerations
      = (update env dt draws { s with bvhEnabled := b2, bvhFrameCount := c2 }).accelerations ∧
    (update env dt draws { s with bvhEnabled := b1, bvhFrameCount := c1 }).wanderAngles
      = (update env dt draws { s with bvhEnabled := b2, bvhFrameCount := c2 }).wanderAngles ∧
    (update env dt draws { s with bvhEnabled := b1, bvhFrameCount := c1 }).panicMode
      = (update env dt draws { s with bvhEnabled := b2, bvhFrameCount := c2 }).panicMode ∧
    (update env dt draws { s with bvhEnabled := b1, bvhFrameCount := c1 }).panicTimer
      = (update env dt draws { s with bvhEnabled := b2, bvhFrameCount := c2 }).panicTimer := by
  simp only [update, bvhPhase_fishPos]
  apply runLoop_lists_congr
  · unfold bvhPhase
    split_ifs <;> rfl
  · unfold bvhPhase
    split_ifs <;> rfl
  · unfold bvhPhase
    split_ifs <;> rfl
  · unfold bvhPhase
    split_ifs <;> rfl
  · unfold bvhPhase
    split_ifs <;> rfl
  · unfold bvhPhase
    split_ifs <;> rfl

end MyShoal
